import Mathlib

/-!
Shallow embedding of the gameplay layer of StationIapetus (the files
`src/level.rs`, `src/door.rs` and `game/src/player/upper_body.rs`) and
proofs about it.

Conventions used throughout:
* `f32` scalars are modelled as `ℚ` (exact arithmetic); overflow and
  rounding play no role in any property below.
* rg3d `Handle<T>` values are modelled as natural numbers, with
  `Handle.NONE = 0`; pool containers are modelled as association lists
  keyed by handle, in which freed handles are simply absent (a stale
  lookup fails, exactly as the generation check of the engine pool makes
  it fail).  Indexing a container with a stale handle panics in the
  engine; the embedding models a panic as `Option.none` of the whole
  operation.
* engine-provided geometric services (`metric_distance`,
  `global_position`, physics ray casts) are parameters of the
  definitions that consume them.
-/

namespace StationIapetus

/-- A 3-component vector (`Vector3<f32>` of rg3d), modelled over `ℚ`. -/
structure Vec3 where
  x : ℚ
  y : ℚ
  z : ℚ
  deriving DecidableEq, Repr

/-- `Vector3::default()` — the zero vector. -/
def Vec3.zero : Vec3 := ⟨0, 0, 0⟩

/-- `Vector3::z()` — the positive Z unit axis. -/
def Vec3.zAxis : Vec3 := ⟨0, 0, 1⟩

/-- Componentwise addition. -/
def Vec3.add (a b : Vec3) : Vec3 := ⟨a.x + b.x, a.y + b.y, a.z + b.z⟩

/-- `Vector3::scale` — multiply every component by a scalar. -/
def Vec3.scale (a : Vec3) (s : ℚ) : Vec3 := ⟨a.x * s, a.y * s, a.z * s⟩

/-- Squared Euclidean norm (exact over `ℚ`; zero iff the vector is zero). -/
def Vec3.normSq (a : Vec3) : ℚ := a.x * a.x + a.y * a.y + a.z * a.z

theorem Vec3.normSq_nonneg (a : Vec3) : 0 ≤ a.normSq := by
  have hx := mul_self_nonneg a.x
  have hy := mul_self_nonneg a.y
  have hz := mul_self_nonneg a.z
  unfold Vec3.normSq
  linarith

theorem Vec3.normSq_eq_zero_iff (a : Vec3) : a.normSq = 0 ↔ a = Vec3.zero := by
  constructor
  · intro h
    have hx := mul_self_nonneg a.x
    have hy := mul_self_nonneg a.y
    have hz := mul_self_nonneg a.z
    unfold Vec3.normSq at h
    have hx0 : a.x * a.x = 0 := by linarith
    have hy0 : a.y * a.y = 0 := by linarith
    have hz0 : a.z * a.z = 0 := by linarith
    have ex : a.x = 0 := by
      rcases mul_eq_zero.mp hx0 with h | h <;> exact h
    have ey : a.y = 0 := by
      rcases mul_eq_zero.mp hy0 with h | h <;> exact h
    have ez : a.z = 0 := by
      rcases mul_eq_zero.mp hz0 with h | h <;> exact h
    cases a
    simp_all [Vec3.zero]
  · intro h
    subst h
    norm_num [Vec3.normSq, Vec3.zero]

/--
`Vector3::try_normalize(eps)` of nalgebra: returns `None` when the norm is
below the threshold (for the embedding: when the vector is zero — the only
"degenerate, not normalizable" case in exact arithmetic), otherwise the
vector scaled by the reciprocal of its norm.  The reciprocal norm is
irrational in general, so it is supplied by the caller as `invNorm`
(the engine computes it in `f32`).
-/
def tryNormalize (invNorm : Vec3 → ℚ) (v : Vec3) : Option Vec3 :=
  if v.normSq = 0 then none else some (v.scale (invNorm v))

end StationIapetus

namespace StationIapetus.Door

/-! ## `src/door.rs` -/

/-- `DoorState` (`src/door.rs`, `#[repr(u32)]`). -/
inductive DoorState where
  | Opened
  | Opening
  | Closed
  | Closing
  | Locked
  | Broken
  deriving DecidableEq, Repr

/-- `DoorState::id` — the `u32` discriminant. -/
def DoorState.id : DoorState → Nat
  | .Opened => 0
  | .Opening => 1
  | .Closed => 2
  | .Closing => 3
  | .Locked => 4
  | .Broken => 5

/-- `DoorState::from_id` (`src/door.rs` lines 34–44). -/
def DoorState.from_id (id : Nat) : Except String DoorState :=
  match id with
  | 0 => .ok .Opened
  | 1 => .ok .Opening
  | 2 => .ok .Closed
  | 3 => .ok .Closing
  | 4 => .ok .Locked
  | 5 => .ok .Broken
  | _ => .error ("Invalid door state id " ++ toString id ++ "!")

/--
The read half of `impl Visit for DoorState` (`src/door.rs` lines 47–56):
on restore, the persisted `u32` is decoded through `from_id` and the `?`
propagates the error produced for an unknown id, failing the visit of that
field.
-/
def DoorState.visitRead (id : Nat) : Except String DoorState :=
  DoorState.from_id id

/--
The translation written into the door body in `DoorContainer::update`
(`src/door.rs` lines 182–197): the initial position plus the door side
direction — normalized, with a degenerate direction replaced by
`unwrap_or_default()`, i.e. the **zero** vector — scaled by the current
offset.
-/
def doorBodyTranslation (invNorm : Vec3 → ℚ) (initialPosition doorSide : Vec3)
    (offset : ℚ) : Vec3 :=
  initialPosition.add (((tryNormalize invNorm doorSide).getD Vec3.zero).scale offset)

/--
The vector substituted for the door-slide direction when the direction is
degenerate, isolated from `doorBodyTranslation` for scrutiny: it is
`Vector3::default()`, the zero vector.
-/
def doorSlideFallback : Vec3 := Vec3.zero

end StationIapetus.Door

namespace StationIapetus

/-! ## Shot direction (`Level::shoot_weapon`, `src/level.rs` lines 776–779) -/

/--
The direction actually given to a projectile in `Level::shoot_weapon`:
the explicitly requested direction, if any, else the weapon's own shot
direction; the result normalized, and a degenerate (zero-length) vector
replaced by `unwrap_or_else(|| Vector3::z())` — the Z unit axis.
The weapon's shot direction is engine data and is a parameter.
-/
def shotDirection (invNorm : Vec3 → ℚ) (explicit : Option Vec3)
    (weaponShotDirection : Vec3) : Vec3 :=
  (tryNormalize invNorm (explicit.getD weaponShotDirection)).getD Vec3.zAxis

end StationIapetus

namespace StationIapetus

/-! ## Claims C10 and C6 -/

open Door

/--
C10. `DoorState::from_id` returns `Ok` with the corresponding state for
every id in `0..=5`, and an `Err` whose message names the invalid id for
every other value; hence `DoorState::visit` on read fails for exactly the
ids outside `0..=5`, and `from_id` is a left inverse of `id`.
-/
theorem C10_doorState_from_id_spec :
    (∀ id : Nat, id ≤ 5 →
      ∃ s : DoorState, DoorState.from_id id = .ok s ∧ s.id = id ∧
        DoorState.visitRead id = .ok s) ∧
    (∀ id : Nat, 5 < id →
      DoorState.from_id id = .error ("Invalid door state id " ++ toString id ++ "!") ∧
        ∀ s : DoorState, DoorState.visitRead id ≠ .ok s) ∧
    (∀ s : DoorState, DoorState.from_id s.id = .ok s) := by
  refine ⟨?_, ?_, ?_⟩
  · intro id h
    interval_cases id
    · exact ⟨.Opened, rfl, rfl, rfl⟩
    · exact ⟨.Opening, rfl, rfl, rfl⟩
    · exact ⟨.Closed, rfl, rfl, rfl⟩
    · exact ⟨.Closing, rfl, rfl, rfl⟩
    · exact ⟨.Locked, rfl, rfl, rfl⟩
    · exact ⟨.Broken, rfl, rfl, rfl⟩
  · intro id h
    have herr : DoorState.from_id id =
        .error ("Invalid door state id " ++ toString id ++ "!") := by
      unfold DoorState.from_id
      match id, h with
      | (n + 6), _ => rfl
    refine ⟨herr, ?_⟩
    intro s
    unfold DoorState.visitRead
    rw [herr]
    simp
  · intro s
    cases s <;> rfl

/-- Witness for C10 at concrete inputs. -/
theorem C10_witness :
    (∃ s : DoorState, DoorState.from_id 3 = .ok s ∧ s.id = 3 ∧
      DoorState.visitRead 3 = .ok s) ∧
    DoorState.from_id 7 = .error "Invalid door state id 7!" ∧
    DoorState.from_id DoorState.Broken.id = .ok .Broken := by
  refine ⟨C10_doorState_from_id_spec.1 3 (by decide), ?_, ?_⟩
  · exact (C10_doorState_from_id_spec.2.1 7 (by decide)).1
  · exact C10_doorState_from_id_spec.2.2 .Broken

/--
C6 counterexample.  The claim says both the shot direction and the
door-slide direction recover from a degenerate direction by substituting a
default **unit** axis.  For the door this is false: `DoorContainer::update`
uses `unwrap_or_default()`, so the substituted vector is the zero vector
(squared norm 0, not 1), and the body translation stays at the initial
position instead of sliding along any axis.  Concretely, with a zero
`door_side`, offset `3/4` and initial position `(1,2,3)`:
-/
theorem C6_counterexample :
    Door.doorBodyTranslation (fun _ => 1) ⟨1, 2, 3⟩ Vec3.zero (3 / 4) = ⟨1, 2, 3⟩ ∧
    Door.doorSlideFallback = Vec3.zero ∧ Vec3.normSq Door.doorSlideFallback ≠ 1 := by
  refine ⟨?_, rfl, ?_⟩
  · norm_num [Door.doorBodyTranslation, tryNormalize, Vec3.normSq, Vec3.zero,
      Vec3.add, Vec3.scale]
  · norm_num [Door.doorSlideFallback, Vec3.normSq, Vec3.zero]

/--
C6 amended: for every degenerate (zero-length) direction vector the shot
direction used by `Level::shoot_weapon` is recovered by substituting the
default unit axis `Vector3::z()`, while the door-slide direction used by
`DoorContainer::update` is recovered by substituting the **zero** vector,
so the door body is positioned exactly at its initial position.
-/
theorem C6_degenerate_direction_fallbacks (invNorm : Vec3 → ℚ)
    (explicit : Option Vec3) (weaponDir initialPosition doorSide : Vec3)
    (offset : ℚ)
    (hshot : (explicit.getD weaponDir).normSq = 0)
    (hdoor : doorSide.normSq = 0) :
    shotDirection invNorm explicit weaponDir = Vec3.zAxis ∧
    Vec3.normSq Vec3.zAxis = 1 ∧
    Door.doorBodyTranslation invNorm initialPosition doorSide offset = initialPosition := by
  refine ⟨?_, by norm_num [Vec3.normSq, Vec3.zAxis], ?_⟩
  · unfold shotDirection tryNormalize
    rw [if_pos hshot]
    rfl
  · unfold Door.doorBodyTranslation tryNormalize
    rw [if_pos hdoor]
    show initialPosition.add (Vec3.scale Vec3.zero offset) = initialPosition
    cases initialPosition
    simp [Vec3.add, Vec3.scale, Vec3.zero]

/-- Witness for C6 amended, at concrete degenerate inputs. -/
theorem C6_witness :
    shotDirection (fun _ => 1) none Vec3.zero = Vec3.zAxis ∧
    Door.doorBodyTranslation (fun _ => 1) ⟨5, 6, 7⟩ Vec3.zero (1 / 2) = ⟨5, 6, 7⟩ := by
  have h := C6_degenerate_direction_fallbacks (fun _ => 1) none Vec3.zero
    ⟨5, 6, 7⟩ Vec3.zero (1 / 2) (by norm_num [Vec3.normSq, Vec3.zero])
    (by norm_num [Vec3.normSq, Vec3.zero])
  exact ⟨h.1, h.2.2⟩

end StationIapetus

namespace StationIapetus

/-! ## Spawn-point selection (`src/level.rs` lines 283–325 and 349–373) -/

/-- `usize::MAX`, the index returned for an empty spawn-point list. -/
def usizeMAX : Nat := 2 ^ 64 - 1

/-- `f32::MAX` as an exact rational: `(2 - 2⁻²³) · 2¹²⁷ = (2²⁴ - 1) · 2¹⁰⁴`. -/
def f32MAX : ℚ := (2 ^ 24 - 1) * 2 ^ 104

/--
The inner accumulation of `find_suitable_spawn_point`: the sum of
`pt.metric_distance(actor.position)` over all actors in iteration order.
The metric itself (`nalgebra`'s Euclidean distance, computed in `f32`) is
a parameter `d`; actor positions come from the physics engine and are
given as a list.
-/
def sumDistance (d : Vec3 → Vec3 → ℚ) (actorPositions : List Vec3) (pt : Vec3) : ℚ :=
  actorPositions.foldl (fun acc a => acc + d pt a) 0

/--
The selection loop of `find_suitable_spawn_point`: scan the per-point
distance sums with a running `(index, max_distance)` pair, replacing it
whenever the current sum is strictly greater.  `k` is the index of the
first element of `sums` in the original list.
-/
def selectBest : List ℚ → Nat → Nat × ℚ → Nat × ℚ
  | [], _, st => st
  | x :: xs, k, st => selectBest xs (k + 1) (if st.2 < x then (k, x) else st)

/--
`find_suitable_spawn_point` (`src/level.rs` lines 349–373).  For an empty
list it returns `usize::MAX`; otherwise the state starts from a random
index `rnd` (drawn from `0..len` by `thread_rng`, passed here as a
parameter) and `max_distance = -f32::MAX`, and the loop scans all points
in order.
-/
def find_suitable_spawn_point (d : Vec3 → Vec3 → ℚ) (spawnPoints : List Vec3)
    (actorPositions : List Vec3) (rnd : Nat) : Nat :=
  if spawnPoints.isEmpty then usizeMAX
  else (selectBest (spawnPoints.map (sumDistance d actorPositions)) 0 (rnd, -f32MAX)).1

/--
The spawn position computed by `spawn_player` (`src/level.rs` lines
292–295): the selected point plus a fixed vertical offset of `1.5`, or
`Vector3::default()` (the origin) when the index is out of range — which
is the case exactly when the spawn-point list is empty.
-/
def playerSpawnPosition (d : Vec3 → Vec3 → ℚ) (spawnPoints actorPositions : List Vec3)
    (rnd : Nat) : Vec3 :=
  ((spawnPoints[find_suitable_spawn_point d spawnPoints actorPositions rnd]?).map
    (fun pt => pt.add ⟨0, 3 / 2, 0⟩)).getD Vec3.zero

/--
The spawn position computed by `spawn_bot` (`src/level.rs` lines 384–387):
the selected point itself, or the origin when the list is empty.
-/
def botSpawnPosition (d : Vec3 → Vec3 → ℚ) (spawnPoints actorPositions : List Vec3)
    (rnd : Nat) : Vec3 :=
  ((spawnPoints[find_suitable_spawn_point d spawnPoints actorPositions rnd]?).map
    id).getD Vec3.zero

theorem sumDistance_nonneg (d : Vec3 → Vec3 → ℚ) (hd : ∀ p q, 0 ≤ d p q)
    (actorPositions : List Vec3) (pt : Vec3) : 0 ≤ sumDistance d actorPositions pt := by
  unfold sumDistance
  suffices h : ∀ (l : List Vec3) (acc : ℚ), 0 ≤ acc →
      0 ≤ l.foldl (fun acc a => acc + d pt a) acc by
    exact h actorPositions 0 le_rfl
  intro l
  induction l with
  | nil => intro acc hacc; exact hacc
  | cons a l ih =>
    intro acc hacc
    exact ih (acc + d pt a) (by have := hd pt a; linarith)

/--
Characterization of the selection loop: either no element beats the
incoming state (and the state is returned unchanged), or the result is the
first element attaining the maximum among those strictly above the
incoming bound.
-/
theorem selectBest_spec (xs : List ℚ) (k : Nat) (st : Nat × ℚ) :
    (selectBest xs k st = st ∧ ∀ j, (hj : j < xs.length) → xs.get ⟨j, hj⟩ ≤ st.2) ∨
    (∃ j, ∃ hj : j < xs.length,
      selectBest xs k st = (k + j, xs.get ⟨j, hj⟩) ∧ st.2 < xs.get ⟨j, hj⟩ ∧
      (∀ j', (hj' : j' < xs.length) → xs.get ⟨j', hj'⟩ ≤ xs.get ⟨j, hj⟩) ∧
      (∀ j', (hj' : j' < j) → xs.get ⟨j', Nat.lt_trans hj' hj⟩ < xs.get ⟨j, hj⟩)) := by
  induction xs generalizing k st with
  | nil =>
    left
    exact ⟨rfl, fun j hj => absurd hj (Nat.not_lt_zero j)⟩
  | cons x xs ih =>
    by_cases hx : st.2 < x
    · -- the head strictly beats the incoming bound: state becomes (k, x)
      have hstep : selectBest (x :: xs) k st = selectBest xs (k + 1) (k, x) := by
        simp [selectBest, hx]
      rcases ih (k + 1) (k, x) with ⟨heq, hle⟩ | ⟨j, hj, heq, hgt, hmax, hfirst⟩
      · right
        refine ⟨0, Nat.succ_pos _, ?_, hx, ?_, ?_⟩
        · rw [hstep, heq]; rfl
        · intro j' hj'
          match j' with
          | 0 => exact le_rfl
          | j' + 1 => exact hle j' (Nat.lt_of_succ_lt_succ hj')
        · intro j' hj'; exact absurd hj' (Nat.not_lt_zero j')
      · right
        refine ⟨j + 1, Nat.succ_lt_succ hj, ?_, ?_, ?_, ?_⟩
        · rw [hstep, heq]
          show ((k + 1) + j, xs.get ⟨j, hj⟩) = (k + (j + 1), (x :: xs).get ⟨j + 1, _⟩)
          rw [Nat.add_right_comm k 1 j]
          rfl
        · exact lt_trans hx hgt
        · intro j' hj'
          match j' with
          | 0 => exact le_of_lt hgt
          | j' + 1 => exact hmax j' (Nat.lt_of_succ_lt_succ hj')
        · intro j' hj'
          match j' with
          | 0 => exact hgt
          | j' + 1 => exact hfirst j' (Nat.lt_of_succ_lt_succ hj')
    · -- the head does not beat the incoming bound: state unchanged
      have hstep : selectBest (x :: xs) k st = selectBest xs (k + 1) st := by
        simp [selectBest, hx]
      have hxle : x ≤ st.2 := le_of_not_lt hx
      rcases ih (k + 1) st with ⟨heq, hle⟩ | ⟨j, hj, heq, hgt, hmax, hfirst⟩
      · left
        refine ⟨by rw [hstep, heq], ?_⟩
        intro j hj'
        match j with
        | 0 => exact hxle
        | j + 1 => exact hle j (Nat.lt_of_succ_lt_succ hj')
      · right
        refine ⟨j + 1, Nat.succ_lt_succ hj, ?_, hgt, ?_, ?_⟩
        · rw [hstep, heq]
          show ((k + 1) + j, xs.get ⟨j, hj⟩) = (k + (j + 1), (x :: xs).get ⟨j + 1, _⟩)
          rw [Nat.add_right_comm k 1 j]
          rfl
        · intro j' hj'
          match j' with
          | 0 => exact le_trans hxle (le_of_lt hgt)
          | j' + 1 => exact hmax j' (Nat.lt_of_succ_lt_succ hj')
        · intro j' hj'
          match j' with
          | 0 => exact lt_of_le_of_lt hxle hgt
          | j' + 1 => exact hfirst j' (Nat.lt_of_succ_lt_succ hj')

/--
C2 counterexample.  The claim says that with no spawn points the chosen
spawn position defaults to the origin offset by a fixed vertical height.
In the code (`src/level.rs` line 293) the out-of-range lookup falls back
to `Vector3::default()`, the plain origin: the `+ (0, 1.5, 0)` offset is
applied only when a spawn point exists.  Concretely, with an empty list
the player spawn position is the origin, which differs from the origin
offset by the code's fixed vertical height `1.5`.
-/
theorem C2_counterexample :
    playerSpawnPosition (fun _ _ => 0) [] [] 0 = Vec3.zero ∧
    Vec3.zero ≠ Vec3.zero.add ⟨0, 3 / 2, 0⟩ := by
  constructor
  · rfl
  · intro h
    have : (0 : ℚ) = 0 + 3 / 2 := congrArg Vec3.y h
    norm_num at this

/--
C2 amended.  `find_suitable_spawn_point` returns, for every non-empty list
of spawn points, the index of the point maximizing the sum of distances to
all actors, with ties broken by the lowest index (and independently of the
random initial index `rnd`); when the list is empty it returns
`usize::MAX` and the chosen spawn position defaults to the plain origin
(`Vector3::default()`), with no vertical offset — the `1.5` vertical
offset of `spawn_player` is added only on top of an existing spawn point.
-/
theorem C2_spawn_point_selection (d : Vec3 → Vec3 → ℚ)
    (spawnPoints actorPositions : List Vec3) (rnd : Nat)
    (hd : ∀ p q, 0 ≤ d p q) :
    (spawnPoints = [] →
      find_suitable_spawn_point d spawnPoints actorPositions rnd = usizeMAX ∧
      playerSpawnPosition d spawnPoints actorPositions rnd = Vec3.zero ∧
      botSpawnPosition d spawnPoints actorPositions rnd = Vec3.zero) ∧
    (spawnPoints ≠ [] →
      ∃ hlt : find_suitable_spawn_point d spawnPoints actorPositions rnd <
          spawnPoints.length,
        (∀ j, (hj : j < spawnPoints.length) →
          sumDistance d actorPositions (spawnPoints.get ⟨j, hj⟩) ≤
            sumDistance d actorPositions (spawnPoints.get
              ⟨find_suitable_spawn_point d spawnPoints actorPositions rnd, hlt⟩)) ∧
        (∀ j, (hj : j < spawnPoints.length) →
          sumDistance d actorPositions (spawnPoints.get ⟨j, hj⟩) =
            sumDistance d actorPositions (spawnPoints.get
              ⟨find_suitable_spawn_point d spawnPoints actorPositions rnd, hlt⟩) →
          find_suitable_spawn_point d spawnPoints actorPositions rnd ≤ j) ∧
        playerSpawnPosition d spawnPoints actorPositions rnd =
          (spawnPoints.get
            ⟨find_suitable_spawn_point d spawnPoints actorPositions rnd, hlt⟩).add
            ⟨0, 3 / 2, 0⟩ ∧
        botSpawnPosition d spawnPoints actorPositions rnd =
          spawnPoints.get
            ⟨find_suitable_spawn_point d spawnPoints actorPositions rnd, hlt⟩) := by
  constructor
  · intro hempty
    subst hempty
    refine ⟨rfl, ?_, ?_⟩ <;> rfl
  · intro hne
    have hlen : 0 < spawnPoints.length := List.length_pos.mpr hne
    have hnotempty : spawnPoints.isEmpty = false := by
      cases spawnPoints with
      | nil => exact absurd rfl hne
      | cons a l => rfl
    set xs := spawnPoints.map (sumDistance d actorPositions) with hxs
    have hxslen : xs.length = spawnPoints.length := by
      rw [hxs, List.length_map]
    have hget : ∀ j, (hj : j < spawnPoints.length) →
        xs.get ⟨j, by rw [hxslen]; exact hj⟩ =
          sumDistance d actorPositions (spawnPoints.get ⟨j, hj⟩) := by
      intro j hj
      simp only [hxs, List.get_eq_getElem, List.getElem_map]
    have hfind : find_suitable_spawn_point d spawnPoints actorPositions rnd =
        (selectBest xs 0 (rnd, -f32MAX)).1 := by
      unfold find_suitable_spawn_point
      rw [hnotempty]
      rfl
    rcases selectBest_spec xs 0 (rnd, -f32MAX) with ⟨_, hle⟩ | ⟨j, hj, heq, _, hmax, hfirst⟩
    · -- impossible: the first (nonnegative) sum would have to be ≤ -f32::MAX < 0
      exfalso
      have h0 : (0 : Nat) < xs.length := by rw [hxslen]; exact hlen
      have h1 := hle 0 h0
      have h2 : 0 ≤ xs.get ⟨0, h0⟩ := by
        rw [hget 0 hlen]
        exact sumDistance_nonneg d hd _ _
      have h3 : (0 : ℚ) < f32MAX := by norm_num [f32MAX]
      have : (rnd, -f32MAX).2 = -f32MAX := rfl
      rw [this] at h1
      linarith
    · have hfindj : find_suitable_spawn_point d spawnPoints actorPositions rnd = j := by
        rw [hfind, heq]
        simp
      have hjlt : j < spawnPoints.length := by rw [← hxslen]; exact hj
      have hlt : find_suitable_spawn_point d spawnPoints actorPositions rnd <
          spawnPoints.length := by rw [hfindj]; exact hjlt
      refine ⟨hlt, ?_, ?_, ?_, ?_⟩
      · intro j' hj'
        have := hmax j' (by rw [hxslen]; exact hj')
        rw [hget j' hj'] at this
        have hj2 : xs.get ⟨j, hj⟩ = sumDistance d actorPositions
            (spawnPoints.get ⟨find_suitable_spawn_point d spawnPoints actorPositions rnd,
              hlt⟩) := by
          have := hget j hjlt
          simp only [hfindj]
          rw [← this]
        rw [hj2] at this
        exact this
      · intro j' hj' hsame
        by_contra hcon
        push_neg at hcon
        rw [hfindj] at hcon
        have hlt2 := hfirst j' hcon
        have hj2 : xs.get ⟨j, hj⟩ = sumDistance d actorPositions
            (spawnPoints.get ⟨find_suitable_spawn_point d spawnPoints actorPositions rnd,
              hlt⟩) := by
          have := hget j hjlt
          simp only [hfindj]
          rw [← this]
        rw [hget j' hj', hj2, hsame] at hlt2
        exact lt_irrefl _ hlt2
      · unfold playerSpawnPosition
        rw [List.getElem?_eq_getElem hlt]
        simp [List.get_eq_getElem]
      · unfold botSpawnPosition
        rw [List.getElem?_eq_getElem hlt]
        simp [List.get_eq_getElem]

/-- Squared Euclidean distance: a concrete nonnegative metric stand-in. -/
def distSq (p q : Vec3) : ℚ :=
  (p.x - q.x) ^ 2 + (p.y - q.y) ^ 2 + (p.z - q.z) ^ 2

theorem distSq_nonneg (p q : Vec3) : 0 ≤ distSq p q := by
  unfold distSq
  positivity

/-- Witness for C2 amended at a concrete input: 3 spawn points, 2 actors. -/
theorem C2_witness :
    (∀ p q : Vec3, 0 ≤ distSq p q) ∧
    (([] : List Vec3) = [] →
      find_suitable_spawn_point distSq [] [⟨0, 0, 0⟩] 0 = usizeMAX ∧
      playerSpawnPosition distSq [] [⟨0, 0, 0⟩] 0 = Vec3.zero ∧
      botSpawnPosition distSq [] [⟨0, 0, 0⟩] 0 = Vec3.zero) ∧
    (([⟨0, 0, 0⟩, ⟨10, 0, 0⟩, ⟨0, 0, 10⟩] : List Vec3) ≠ [] →
      ∃ hlt : find_suitable_spawn_point distSq [⟨0, 0, 0⟩, ⟨10, 0, 0⟩, ⟨0, 0, 10⟩]
          [⟨0, 0, 0⟩, ⟨1, 0, 0⟩] 2 <
          ([⟨0, 0, 0⟩, ⟨10, 0, 0⟩, ⟨0, 0, 10⟩] : List Vec3).length,
        (∀ j, (hj : j < ([⟨0, 0, 0⟩, ⟨10, 0, 0⟩, ⟨0, 0, 10⟩] : List Vec3).length) →
          sumDistance distSq [⟨0, 0, 0⟩, ⟨1, 0, 0⟩]
              (([⟨0, 0, 0⟩, ⟨10, 0, 0⟩, ⟨0, 0, 10⟩] : List Vec3).get ⟨j, hj⟩) ≤
            sumDistance distSq [⟨0, 0, 0⟩, ⟨1, 0, 0⟩]
              (([⟨0, 0, 0⟩, ⟨10, 0, 0⟩, ⟨0, 0, 10⟩] : List Vec3).get
                ⟨find_suitable_spawn_point distSq [⟨0, 0, 0⟩, ⟨10, 0, 0⟩, ⟨0, 0, 10⟩]
                  [⟨0, 0, 0⟩, ⟨1, 0, 0⟩] 2, hlt⟩)) ∧
        (∀ j, (hj : j < ([⟨0, 0, 0⟩, ⟨10, 0, 0⟩, ⟨0, 0, 10⟩] : List Vec3).length) →
          sumDistance distSq [⟨0, 0, 0⟩, ⟨1, 0, 0⟩]
              (([⟨0, 0, 0⟩, ⟨10, 0, 0⟩, ⟨0, 0, 10⟩] : List Vec3).get ⟨j, hj⟩) =
            sumDistance distSq [⟨0, 0, 0⟩, ⟨1, 0, 0⟩]
              (([⟨0, 0, 0⟩, ⟨10, 0, 0⟩, ⟨0, 0, 10⟩] : List Vec3).get
                ⟨find_suitable_spawn_point distSq [⟨0, 0, 0⟩, ⟨10, 0, 0⟩, ⟨0, 0, 10⟩]
                  [⟨0, 0, 0⟩, ⟨1, 0, 0⟩] 2, hlt⟩) →
          find_suitable_spawn_point distSq [⟨0, 0, 0⟩, ⟨10, 0, 0⟩, ⟨0, 0, 10⟩]
            [⟨0, 0, 0⟩, ⟨1, 0, 0⟩] 2 ≤ j) ∧
        playerSpawnPosition distSq [⟨0, 0, 0⟩, ⟨10, 0, 0⟩, ⟨0, 0, 10⟩]
            [⟨0, 0, 0⟩, ⟨1, 0, 0⟩] 2 =
          (([⟨0, 0, 0⟩, ⟨10, 0, 0⟩, ⟨0, 0, 10⟩] : List Vec3).get
            ⟨find_suitable_spawn_point distSq [⟨0, 0, 0⟩, ⟨10, 0, 0⟩, ⟨0, 0, 10⟩]
              [⟨0, 0, 0⟩, ⟨1, 0, 0⟩] 2, hlt⟩).add ⟨0, 3 / 2, 0⟩ ∧
        botSpawnPosition distSq [⟨0, 0, 0⟩, ⟨10, 0, 0⟩, ⟨0, 0, 10⟩]
            [⟨0, 0, 0⟩, ⟨1, 0, 0⟩] 2 =
          ([⟨0, 0, 0⟩, ⟨10, 0, 0⟩, ⟨0, 0, 10⟩] : List Vec3).get
            ⟨find_suitable_spawn_point distSq [⟨0, 0, 0⟩, ⟨10, 0, 0⟩, ⟨0, 0, 10⟩]
              [⟨0, 0, 0⟩, ⟨1, 0, 0⟩] 2, hlt⟩) := by
  refine ⟨distSq_nonneg, ?_, ?_⟩
  · exact (C2_spawn_point_selection distSq [] [⟨0, 0, 0⟩] 0 distSq_nonneg).1
  · exact (C2_spawn_point_selection distSq [⟨0, 0, 0⟩, ⟨10, 0, 0⟩, ⟨0, 0, 10⟩]
      [⟨0, 0, 0⟩, ⟨1, 0, 0⟩] 2 distSq_nonneg).2

end StationIapetus

namespace StationIapetus.LevelSim

/-!
## Level simulation state (`src/level.rs`)

Entity containers are rg3d `Pool`s; a `Handle` is a generation-checked
index into a pool.  The embedding keys an association list by handle and
hands out fresh handles from a counter, so a freed handle is simply absent
and a stale lookup fails — the observable behaviour of the engine pool.
Indexing a pool (`container[handle]`) with a stale handle panics in the
engine; an operation that can reach such an indexing is modelled as
returning `Option`, with `none` for the panic.
-/

/-- rg3d `Handle<T>`; `Handle::NONE` is the default handle. -/
structure Handle where
  idx : Nat
  deriving DecidableEq, Repr

/-- `Handle::NONE`. -/
def Handle.NONE : Handle := ⟨0⟩

/-- `Handle::is_none`. -/
def Handle.is_none (h : Handle) : Bool := h = Handle.NONE

/-- `Handle::is_some`. -/
def Handle.is_some (h : Handle) : Bool := h ≠ Handle.NONE

/-- An rg3d `Pool<T>`: live entries keyed by handle, plus a fresh counter. -/
structure Pool (α : Type) where
  entries : List (Handle × α)
  nextHandle : Nat
  deriving Repr

/-- `Pool::contains` (`ActorContainer::contains` etc.). -/
def Pool.contains {α : Type} (p : Pool α) (h : Handle) : Bool :=
  p.entries.any (fun e => e.1 = h)

/-- Checked borrow: `some` for a live handle, `none` for a freed one. -/
def Pool.get {α : Type} (p : Pool α) (h : Handle) : Option α :=
  (p.entries.find? (fun e => e.1 = h)).map (fun e => e.2)

/-- `Pool::free`: the entry is gone, later lookups fail. -/
def Pool.free {α : Type} (p : Pool α) (h : Handle) : Pool α :=
  { p with entries := p.entries.filter (fun e => e.1 ≠ h) }

/-- `Pool::spawn` / `Container::add`: returns the new handle. -/
def Pool.add {α : Type} (p : Pool α) (a : α) : Handle × Pool α :=
  (⟨p.nextHandle⟩, ⟨p.entries ++ [(⟨p.nextHandle⟩, a)], p.nextHandle + 1⟩)

/-- In-place mutation through a live handle (`get_mut`). -/
def Pool.modify {α : Type} (p : Pool α) (h : Handle) (f : α → α) : Pool α :=
  { p with entries := p.entries.map (fun e => if e.1 = h then (e.1, f e.2) else e) }

/-- `WeaponKind` (`src/weapon.rs`, as used by `src/level.rs`). -/
inductive WeaponKind where
  | M4
  | Ak47
  | PlasmaRifle
  deriving DecidableEq, Repr

/-- `ItemKind` (`src/item.rs`, as used by `src/level.rs`). -/
inductive ItemKind where
  | Medkit
  | Ak47Ammo
  | M4Ammo
  | Plasma
  | M4
  | Ak47
  | PlasmaGun
  | RocketLauncher
  deriving DecidableEq, Repr

/--
A weapon entry.  `Weapon` itself lives in `src/weapon.rs` (not under
`src/`); the fields here are the ones `src/level.rs` reads or writes:
kind (`get_kind`), owner (`set_owner`), ammo (`add_ammo`) and model
visibility (`set_visibility`).
-/
structure Weapon where
  kind : WeaponKind
  owner : Handle
  ammo : Nat
  visible : Bool
  deriving DecidableEq, Repr

/-- A projectile entry; `src/level.rs` touches only its `owner` weapon handle. -/
structure Projectile where
  owner : Handle
  deriving DecidableEq, Repr

/--
An actor entry (`Actor::Player` / `Actor::Bot` with its `Character`
fields as used by `src/level.rs`): weapon-handle list, health
(`damage`/`heal`/`is_dead` live in character code outside `src/`, modelled
as plain arithmetic on a health value), the physics-provided position, and
the bot point of interest.
-/
structure ActorRec where
  isBot : Bool
  health : ℚ
  weapons : List Handle
  position : Vec3
  poi : Option Vec3
  deriving DecidableEq, Repr

/-- An item entry, with its scene position and pickup flag. -/
structure Item where
  kind : ItemKind
  position : Vec3
  picked : Bool
  lifetime : Option ℚ
  deriving DecidableEq, Repr

/-- `AxisAlignedBoundingBox` of rg3d (inclusive `is_contains_point`). -/
structure AABB where
  min : Vec3
  max : Vec3
  deriving DecidableEq, Repr

/-- rg3d `AxisAlignedBoundingBox::is_contains_point`. -/
def AABB.is_contains_point (b : AABB) (p : Vec3) : Bool :=
  b.min.x ≤ p.x ∧ b.min.y ≤ p.y ∧ b.min.z ≤ p.z ∧
    p.x ≤ b.max.x ∧ p.y ≤ b.max.y ∧ p.z ≤ b.max.z

/--
`Message` (`src/message.rs`), restricted to the variants the verified
properties are about, plus the two variants `src/level.rs` itself emits
(`PlaySound`, `EndMatch`).  The remaining variants are handled by code not
under any claim.
-/
inductive Message where
  | ShowWeapon (weapon : Handle) (state : Bool)
  | DamageActor (actor : Handle) (who : Handle) (amount : ℚ)
  | PickUpItem (actor : Handle) (item : Handle)
  | GiveItem (actor : Handle) (kind : ItemKind)
  | RemoveActor (actor : Handle)
  | PlaySound (path : String) (position : Vec3) (gain : ℚ) (rolloff : ℚ) (radius : ℚ)
  | EndMatch
  deriving DecidableEq, Repr

/--
The `Level` state owned by the simulation (`src/level.rs` lines 126–143),
restricted to the gameplay containers (scene/sound/receiver fields are
engine services).  `sentMessages` is the FIFO log of messages pushed into
the `Sender<Message>` channel.
-/
structure Level where
  player : Handle
  actors : Pool ActorRec
  weapons : Pool Weapon
  items : Pool Item
  projectiles : List Projectile
  death_zones : List AABB
  sentMessages : List Message
  deriving Repr

/--
The projectile pass at the top of `Level::remove_weapon` (`src/level.rs`
lines 600–605): every projectile whose owner is the weapon being removed
has its owner reset to `Handle::NONE`.
-/
def reset_projectile_owners (projectiles : List Projectile) (weapon : Handle) :
    List Projectile :=
  projectiles.map (fun p => if p.owner = weapon then { p with owner := Handle.NONE } else p)

/--
`Level::remove_weapon` (`src/level.rs` lines 599–608): reset stale
projectile owners first, then `self.weapons[weapon].clean_up(...)` (an
unchecked pool index — a panic on a stale handle, modelled as `none`),
then free the weapon.
-/
def remove_weapon (lvl : Level) (weapon : Handle) : Option Level :=
  let projectiles := reset_projectile_owners lvl.projectiles weapon
  match lvl.weapons.get weapon with
  | none => none
  | some _ =>
    some { lvl with projectiles := projectiles, weapons := lvl.weapons.free weapon }

/--
`Level::show_weapon` (`src/level.rs` lines 795–797):
`self.weapons[weapon_handle].set_visibility(state, ...)` — an unchecked
pool index with **no** `contains` guard, so a stale handle panics
(modelled as `none`).
-/
def show_weapon (lvl : Level) (weapon : Handle) (state : Bool) : Option Level :=
  match lvl.weapons.get weapon with
  | none => none
  | some _ =>
    some { lvl with
      weapons := lvl.weapons.modify weapon (fun w => { w with visible := state }) }

/--
`Level::damage_actor` (`src/level.rs` lines 814–839): guarded by
`contains(actor) && (who.is_none() || who.is_some() && contains(who))`;
for a bot victim with a known attacker the point of interest is set, then
`Character::damage` (character code outside `src/`; modelled as a health
decrease) is applied.
-/
def damage_actor (lvl : Level) (actor who : Handle) (amount : ℚ) : Level :=
  if lvl.actors.contains actor &&
      (Handle.is_none who || (Handle.is_some who && lvl.actors.contains who)) then
    let whoPosition :=
      if Handle.is_some who then (lvl.actors.get who).map (fun a => a.position)
      else none
    { lvl with actors := lvl.actors.modify actor (fun a =>
        let a := if a.isBot then
            match whoPosition with
            | some p => { a with poi := some p }
            | none => a
          else a
        { a with health := a.health - amount }) }
  else lvl

/-- `WeaponKind → ItemKind` mapping of `Level::remove_actor` (lines 641–645). -/
def itemKindOfWeapon : WeaponKind → ItemKind
  | .M4 => .M4
  | .Ak47 => .Ak47
  | .PlasmaRifle => .PlasmaGun

/--
`Level::spawn_item` (`src/level.rs` lines 841–865): the position is
optionally snapped by a downward ray cast (`self.pick`, a physics query —
supplied as the function `pick`), then an item is created and added.
`Item::new` is item code outside `src/`; modelled as a fresh item record.
-/
def spawn_item (pick : Vec3 → Vec3) (lvl : Level) (kind : ItemKind)
    (position : Vec3) (adjust_height : Bool) (lifetime : Option ℚ) : Level :=
  let position := if adjust_height then pick position else position
  let item : Item := { kind := kind, position := position, picked := false,
                       lifetime := lifetime }
  { lvl with items := (lvl.items.add item).2 }

/--
One step of the weapon-removal loop in `Level::remove_actor` (lines
640–649): read the weapon kind through an unchecked pool index (panic on a
stale handle → `none`), spawn the dropped item, then `remove_weapon`.
-/
def remove_actor_weapon_step (pick : Vec3 → Vec3) (drop_position : Vec3)
    (acc : Option Level) (w : Handle) : Option Level :=
  acc.bind (fun l =>
    match l.weapons.get w with
    | none => none
    | some wrec =>
      remove_weapon
        (spawn_item pick l (itemKindOfWeapon wrec.kind) drop_position true (some 20)) w)

/--
`Level::remove_actor` (`src/level.rs` lines 628–659): guarded by
`contains`; drops an item for and removes every held weapon, frees the
actor, and resets the level's player handle to `Handle::NONE` when the
removed actor is the player.
-/
def remove_actor (pick : Vec3 → Vec3) (lvl : Level) (actor : Handle) : Option Level :=
  if lvl.actors.contains actor then
    match lvl.actors.get actor with
    | none => none
    | some character =>
      let drop_position := character.position
      (character.weapons.foldl (remove_actor_weapon_step pick drop_position)
          (some lvl)).map (fun l =>
        let l := { l with actors := l.actors.free actor }
        if l.player = actor then { l with player := Handle.NONE } else l)
  else some lvl

/--
`give_new_weapon` (`src/level.rs` lines 327–347, via the method wrapper at
518–535): guarded by `contains`; `Weapon::new` (weapon code outside
`src/`; modelled as a fresh weapon record with zero ammo) is created with
the actor as owner, added to the weapon pool, and its handle appended to
the actor's weapon list.
-/
def give_new_weapon (lvl : Level) (actor : Handle) (kind : WeaponKind)
    (visible : Bool) : Level :=
  if lvl.actors.contains actor then
    let weapon : Weapon := { kind := kind, owner := actor, ammo := 0,
                             visible := visible }
    let added := lvl.weapons.add weapon
    { lvl with
      weapons := added.2,
      actors := lvl.actors.modify actor (fun a =>
        { a with weapons := a.weapons ++ [added.1] }) }
  else lvl

/-- The `ItemKind → WeaponKind` mapping of `Level::give_item` (lines 667–672);
`RocketLauncher` hits `unreachable!()` — a panic, modelled as `none`. -/
def weaponKindOfItem : ItemKind → Option WeaponKind
  | .Ak47 => some .Ak47
  | .PlasmaGun => some .PlasmaRifle
  | .M4 => some .M4
  | _ => none

/--
The weapon-search loop of `Level::give_item` (lines 674–683): scan the
actor's weapons through unchecked pool indexing (`self.weapons[*handle]`,
panic on a stale handle → outer `none`); the inner result is the handle of
the first weapon of the wanted kind, if any.
-/
def findWeaponOfKind (lvl : Level) (hs : List Handle) (wk : WeaponKind) :
    Option (Option Handle) :=
  match hs with
  | [] => some none
  | h :: rest =>
    match lvl.weapons.get h with
    | none => none
    | some w => if w.kind = wk then some (some h) else findWeaponOfKind lvl rest wk

/--
The ammo loop of `Level::give_item` (lines 689–703): give 200 rounds to
the first held weapon matching the ammo kind (unchecked pool indexing on
each held handle → `none` on a stale one).
-/
def giveAmmo (lvl : Level) (hs : List Handle) (wk : WeaponKind) (ammo : Nat) :
    Option Level :=
  match hs with
  | [] => some lvl
  | h :: rest =>
    match lvl.weapons.get h with
    | none => none
    | some w =>
      if w.kind = wk then
        some { lvl with
          weapons := lvl.weapons.modify h (fun w => { w with ammo := w.ammo + ammo }) }
      else giveAmmo lvl rest wk ammo

/--
`Level::give_item` (`src/level.rs` lines 661–706): guarded by `contains`;
medkits heal (`Character::heal`, outside `src/`, modelled as a health
increase), weapon items add 200 ammo to an already-held weapon of the kind
or give a new one, ammo items add 200 rounds to the matching held weapon.
-/
def give_item (lvl : Level) (actor : Handle) (kind : ItemKind) : Option Level :=
  if lvl.actors.contains actor then
    match lvl.actors.get actor with
    | none => none
    | some character =>
      match kind with
      | .Medkit =>
        some { lvl with actors := lvl.actors.modify actor (fun a =>
          { a with health := a.health + 20 }) }
      | .Ak47 | .PlasmaGun | .M4 | .RocketLauncher =>
        match weaponKindOfItem kind with
        | none => none
        | some weapon_kind =>
          (findWeaponOfKind lvl character.weapons weapon_kind).bind (fun found =>
            match found with
            | some h =>
              some { lvl with weapons := lvl.weapons.modify h (fun w =>
                { w with ammo := w.ammo + 200 }) }
            | none => some (give_new_weapon lvl actor weapon_kind true))
      | .Plasma => giveAmmo lvl character.weapons .PlasmaRifle 200
      | .Ak47Ammo => giveAmmo lvl character.weapons .Ak47 200
      | .M4Ammo => giveAmmo lvl character.weapons .M4 200
  else some lvl

/--
`Level::pickup_item` (`src/level.rs` lines 708–734): guarded by
`contains(actor) && contains(item)`; marks the item picked
(`Item::pick_up`, outside `src/`, modelled as a flag), sends the pickup
sound message, then `give_item`.
-/
def pickup_item (lvl : Level) (actor item : Handle) : Option Level :=
  if lvl.actors.contains actor && lvl.items.contains item then
    match lvl.items.get item with
    | none => none
    | some it =>
      let lvl := { lvl with
        items := lvl.items.modify item (fun i => { i with picked := true }),
        sentMessages := lvl.sentMessages ++
          [Message.PlaySound "data/sounds/item_pickup.ogg" it.position 1 3 2] }
      give_item lvl actor it.kind
  else some lvl

/--
The messages emitted by `Level::update_death_zones` (`src/level.rs` lines
867–886), in iteration order: for every actor, for every death zone whose
bounding box contains the actor's position, one
`DamageActor { actor, who: Default::default(), amount: 99999.0 }`.
-/
def deathZoneMessages (lvl : Level) : List Message :=
  lvl.actors.entries.flatMap (fun e =>
    lvl.death_zones.filterMap (fun z =>
      if z.is_contains_point e.2.position then
        some (Message.DamageActor e.1 Handle.NONE 99999)
      else none))

/-- `Level::update_death_zones` itself: its only effect is the sends. -/
def update_death_zones (lvl : Level) : Level :=
  { lvl with sentMessages := lvl.sentMessages ++ deathZoneMessages lvl }

/--
`Level::handle_message` (`src/level.rs` lines 923–1003), restricted to the
modelled variants (the sound manager's handling of `PlaySound` touches
only the audio context).  `none` models a panic inside a handler.
-/
def handle_message (pick : Vec3 → Vec3) (lvl : Level) (msg : Message) : Option Level :=
  match msg with
  | .ShowWeapon weapon state => show_weapon lvl weapon state
  | .DamageActor actor who amount => some (damage_actor lvl actor who amount)
  | .PickUpItem actor item => pickup_item lvl actor item
  | .GiveItem actor kind => give_item lvl actor kind
  | .RemoveActor actor => remove_actor pick lvl actor
  | _ => some lvl

end StationIapetus.LevelSim

namespace StationIapetus.LevelSim

/-! ## Pool lemmas -/

theorem Pool.get_eq_none_of_not_contains {α : Type} (p : Pool α) (h : Handle)
    (hc : p.contains h = false) : p.get h = none := by
  unfold Pool.contains at hc
  unfold Pool.get
  rw [List.any_eq_false] at hc
  rw [List.find?_eq_none.mpr]
  · rfl
  · intro e he
    exact hc e he

theorem Pool.get_isSome_of_contains {α : Type} (p : Pool α) (h : Handle)
    (hc : p.contains h = true) : (p.get h).isSome = true := by
  unfold Pool.contains at hc
  unfold Pool.get
  rw [List.any_eq_true] at hc
  obtain ⟨e, he, hpe⟩ := hc
  have hfind : (List.find? (fun e => e.1 = h) p.entries).isSome :=
    List.find?_isSome.mpr ⟨e, he, hpe⟩
  obtain ⟨e', hf⟩ := Option.isSome_iff_exists.mp hfind
  rw [hf]
  rfl

theorem Pool.contains_free_iff {α : Type} (p : Pool α) (h h' : Handle) :
    (p.free h).contains h' = true ↔ p.contains h' = true ∧ h' ≠ h := by
  unfold Pool.free Pool.contains
  simp only [List.any_eq_true, List.mem_filter, decide_eq_true_eq, ne_eq,
    decide_not, Bool.not_eq_true', decide_eq_false_iff_not]
  constructor
  · rintro ⟨e, ⟨he, hne⟩, hkey⟩
    subst hkey
    exact ⟨⟨e, he, rfl⟩, hne⟩
  · rintro ⟨⟨e, he, hkey⟩, hne⟩
    subst hkey
    exact ⟨e, ⟨he, hne⟩, rfl⟩

theorem Pool.contains_modify {α : Type} (p : Pool α) (h h' : Handle) (f : α → α) :
    (p.modify h f).contains h' = p.contains h' := by
  rcases p with ⟨entries, nh⟩
  unfold Pool.modify Pool.contains
  simp only
  induction entries with
  | nil => rfl
  | cons e rest ih =>
    simp only [List.map_cons, List.any_cons, ih]
    by_cases he : e.1 = h <;> simp [he]

/-! ## Claim C1 -/

/-- A concrete level with no live entities (fresh handles start at 1). -/
def emptyLevel : Level :=
  { player := Handle.NONE, actors := ⟨[], 1⟩, weapons := ⟨[], 1⟩,
    items := ⟨[], 1⟩, projectiles := [], death_zones := [], sentMessages := [] }

/--
C1 counterexample.  The claim says that handling every listed message with
a freed handle — `ShowWeapon` included — is a silent no-op that does not
fail.  `Level::show_weapon` has no `contains` guard: it indexes
`self.weapons[weapon_handle]` directly, which panics on a freed handle
(modelled as `none`).  Concretely, on a level whose weapon pool does not
contain handle 5, handling `ShowWeapon` fails instead of being a no-op.
-/
theorem C1_counterexample :
    handle_message (fun v => v) emptyLevel (.ShowWeapon ⟨5⟩ true) = none ∧
    handle_message (fun v => v) emptyLevel (.ShowWeapon ⟨5⟩ true) ≠
      some emptyLevel := by
  refine ⟨rfl, ?_⟩
  intro hcon
  simp [handle_message, show_weapon, Pool.get, emptyLevel] at hcon

/--
C1 amended.  For `DamageActor` (freed victim handle), `PickUpItem` (freed
actor or item handle), `GiveItem` (freed actor handle) and `RemoveActor`
(freed actor handle), handling the message is a silent no-op that leaves
the level state unchanged (no mutation, no emitted message) and does not
fail.  `ShowWeapon` with a freed weapon handle is the exception: its
handler indexes the weapon pool without a guard and fails (panics) instead.
-/
theorem C1_stale_handle_messages (pick : Vec3 → Vec3) (lvl : Level) :
    (∀ (a who : Handle) (amount : ℚ), lvl.actors.contains a = false →
      handle_message pick lvl (.DamageActor a who amount) = some lvl) ∧
    (∀ a i : Handle, lvl.actors.contains a = false ∨ lvl.items.contains i = false →
      handle_message pick lvl (.PickUpItem a i) = some lvl) ∧
    (∀ (a : Handle) (kind : ItemKind), lvl.actors.contains a = false →
      handle_message pick lvl (.GiveItem a kind) = some lvl) ∧
    (∀ a : Handle, lvl.actors.contains a = false →
      handle_message pick lvl (.RemoveActor a) = some lvl) ∧
    (∀ (w : Handle) (state : Bool), lvl.weapons.contains w = false →
      handle_message pick lvl (.ShowWeapon w state) = none) := by
  refine ⟨?_, ?_, ?_, ?_, ?_⟩
  · intro a who amount hc
    simp [handle_message, damage_actor, hc]
  · intro a i hor
    rcases hor with hc | hc <;> simp [handle_message, pickup_item, hc]
  · intro a kind hc
    simp [handle_message, give_item, hc]
  · intro a hc
    simp [handle_message, remove_actor, hc]
  · intro w state hc
    simp [handle_message, show_weapon, Pool.get_eq_none_of_not_contains _ _ hc]

/-- Witness for C1 amended, at the concrete empty level. -/
theorem C1_witness :
    handle_message (fun v => v) emptyLevel (.DamageActor ⟨3⟩ Handle.NONE 5) =
      some emptyLevel ∧
    handle_message (fun v => v) emptyLevel (.PickUpItem ⟨3⟩ ⟨4⟩) = some emptyLevel ∧
    handle_message (fun v => v) emptyLevel (.GiveItem ⟨3⟩ .Medkit) = some emptyLevel ∧
    handle_message (fun v => v) emptyLevel (.RemoveActor ⟨3⟩) = some emptyLevel ∧
    handle_message (fun v => v) emptyLevel (.ShowWeapon ⟨4⟩ false) = none := by
  have h := C1_stale_handle_messages (fun v => v) emptyLevel
  exact ⟨h.1 ⟨3⟩ Handle.NONE 5 rfl, h.2.1 ⟨3⟩ ⟨4⟩ (Or.inl rfl),
    h.2.2.1 ⟨3⟩ .Medkit rfl, h.2.2.2.1 ⟨3⟩ rfl, h.2.2.2.2 ⟨4⟩ false rfl⟩

end StationIapetus.LevelSim

namespace StationIapetus.LevelSim

/-! ## Claim C3: weapon/actor removal invariants -/

theorem Pool.contains_of_get_isSome {α : Type} (p : Pool α) (h : Handle)
    (hg : (p.get h).isSome = true) : p.contains h = true := by
  unfold Pool.get at hg
  unfold Pool.contains
  cases hf : List.find? (fun e => e.1 = h) p.entries with
  | none => rw [hf] at hg; simp at hg
  | some e =>
    have hmem := List.mem_of_find?_eq_some hf
    have hpe := List.find?_some hf
    rw [List.any_eq_true]
    exact ⟨e, hmem, hpe⟩

theorem Pool.contains_free_self {α : Type} (p : Pool α) (h : Handle) :
    (p.free h).contains h = false := by
  by_contra hcon
  rw [Bool.not_eq_false] at hcon
  exact ((Pool.contains_free_iff p h h).mp hcon).2 rfl

theorem Pool.contains_free_of_not_contains {α : Type} (p : Pool α) (h h' : Handle)
    (hc : p.contains h' = false) : (p.free h).contains h' = false := by
  by_contra hcon
  rw [Bool.not_eq_false] at hcon
  have := ((Pool.contains_free_iff p h h').mp hcon).1
  rw [hc] at this
  exact Bool.false_ne_true this

theorem reset_projectile_owners_not_owner (ps : List Projectile) (w : Handle)
    (hw : w ≠ Handle.NONE) :
    ∀ p ∈ reset_projectile_owners ps w, p.owner ≠ w := by
  intro p hp
  unfold reset_projectile_owners at hp
  rw [List.mem_map] at hp
  obtain ⟨q, _, hq⟩ := hp
  by_cases hqo : q.owner = w
  · rw [← hq]
    simp only [hqo, if_pos rfl]
    exact fun hcon => hw hcon.symm
  · rw [← hq]
    simp only [if_neg hqo]
    exact hqo

theorem reset_projectile_owners_preserve (ps : List Projectile) (w w' : Handle)
    (hw' : w' ≠ Handle.NONE) (hp : ∀ p ∈ ps, p.owner ≠ w') :
    ∀ p ∈ reset_projectile_owners ps w, p.owner ≠ w' := by
  intro p hpm
  unfold reset_projectile_owners at hpm
  rw [List.mem_map] at hpm
  obtain ⟨q, hqm, hq⟩ := hpm
  by_cases hqo : q.owner = w
  · rw [← hq]
    simp only [hqo, if_pos rfl]
    exact fun hcon => hw' hcon.symm
  · rw [← hq]
    simp only [if_neg hqo]
    exact hp q hqm

/-- `remove_weapon` on a live handle: owners are reset on the pre-free
projectile list, then the weapon is freed. -/
theorem remove_weapon_eq (lvl : Level) (w : Handle)
    (hc : lvl.weapons.contains w = true) :
    remove_weapon lvl w = some { lvl with
      projectiles := reset_projectile_owners lvl.projectiles w,
      weapons := lvl.weapons.free w } := by
  obtain ⟨wa, hg⟩ := Option.isSome_iff_exists.mp (Pool.get_isSome_of_contains _ _ hc)
  unfold remove_weapon
  rw [hg]

theorem spawn_item_weapons (pick : Vec3 → Vec3) (lvl : Level) (kind : ItemKind)
    (position : Vec3) (adjust_height : Bool) (lifetime : Option ℚ) :
    (spawn_item pick lvl kind position adjust_height lifetime).weapons = lvl.weapons ∧
    (spawn_item pick lvl kind position adjust_height lifetime).projectiles =
      lvl.projectiles ∧
    (spawn_item pick lvl kind position adjust_height lifetime).actors = lvl.actors ∧
    (spawn_item pick lvl kind position adjust_height lifetime).player = lvl.player :=
  ⟨rfl, rfl, rfl, rfl⟩

/--
Invariant of the weapon-removal fold in `remove_actor`: given a duplicate-free
list of live, non-`NONE` weapon handles, the fold succeeds, removes every
listed weapon, leaves no projectile owner pointing at any of them, and does
not touch the actor pool or the player handle.
-/
theorem remove_actor_fold_spec (pick : Vec3 → Vec3) (drop : Vec3) :
    ∀ (hs : List Handle) (l : Level),
      (∀ w ∈ hs, w ≠ Handle.NONE ∧ l.weapons.contains w = true) →
      hs.Nodup →
      ∃ l', hs.foldl (remove_actor_weapon_step pick drop) (some l) = some l' ∧
        (∀ w ∈ hs, l'.weapons.contains w = false ∧
          ∀ p ∈ l'.projectiles, p.owner ≠ w) ∧
        l'.actors = l.actors ∧ l'.player = l.player ∧
        (∀ w, l.weapons.contains w = false → l'.weapons.contains w = false) ∧
        (∀ w, w ≠ Handle.NONE → (∀ p ∈ l.projectiles, p.owner ≠ w) →
          ∀ p ∈ l'.projectiles, p.owner ≠ w) := by
  intro hs
  induction hs with
  | nil =>
    intro l _ _
    refine ⟨l, rfl, ?_, rfl, rfl, fun w hw => hw, fun w _ hp => hp⟩
    intro w hw
    exact absurd hw (List.not_mem_nil w)
  | cons w hs ih =>
    intro l hlive hnd
    obtain ⟨hwne, hwc⟩ := hlive w (List.mem_cons_self w hs)
    obtain ⟨wa, hg⟩ := Option.isSome_iff_exists.mp (Pool.get_isSome_of_contains _ _ hwc)
    -- the state after dropping the item and removing the head weapon
    set l1 := spawn_item pick l (itemKindOfWeapon wa.kind) drop true (some 20) with hl1
    have hl1w : l1.weapons = l.weapons := rfl
    have hl1p : l1.projectiles = l.projectiles := rfl
    have hl1a : l1.actors = l.actors := rfl
    have hl1pl : l1.player = l.player := rfl
    have hc1 : l1.weapons.contains w = true := by rw [hl1w]; exact hwc
    set l2 : Level := { l1 with
      projectiles := reset_projectile_owners l1.projectiles w,
      weapons := l1.weapons.free w } with hl2
    have hstep : remove_actor_weapon_step pick drop (some l) w = some l2 := by
      unfold remove_actor_weapon_step
      rw [Option.some_bind, hg]
      show remove_weapon l1 w = some l2
      rw [remove_weapon_eq l1 w hc1]
    have hfold : (w :: hs).foldl (remove_actor_weapon_step pick drop) (some l) =
        hs.foldl (remove_actor_weapon_step pick drop) (some l2) := by
      rw [List.foldl_cons, hstep]
    have hndtail := (List.nodup_cons.mp hnd).2
    have hwnotin := (List.nodup_cons.mp hnd).1
    have hlive2 : ∀ w' ∈ hs, w' ≠ Handle.NONE ∧ l2.weapons.contains w' = true := by
      intro w' hw'
      obtain ⟨hne', hc'⟩ := hlive w' (List.mem_cons_of_mem w hw')
      refine ⟨hne', ?_⟩
      show (l1.weapons.free w).contains w' = true
      rw [Pool.contains_free_iff]
      refine ⟨by rw [hl1w]; exact hc', ?_⟩
      intro hcon
      exact hwnotin (hcon ▸ hw')
    obtain ⟨l', hfold', hrem, hact, hpl, hpres, hppres⟩ := ih l2 hlive2 hndtail
    refine ⟨l', by rw [hfold]; exact hfold', ?_, ?_, ?_, ?_, ?_⟩
    · intro w' hw'
      rcases List.mem_cons.mp hw' with hw' | hw'
      · subst hw'
        constructor
        · apply hpres
          show (l1.weapons.free w').contains w' = false
          exact Pool.contains_free_self _ _
        · apply hppres w' hwne
          show ∀ p ∈ reset_projectile_owners l1.projectiles w', p.owner ≠ w'
          exact reset_projectile_owners_not_owner _ _ hwne
      · exact hrem w' hw'
    · rw [hact]
      show l1.actors = l.actors
      exact hl1a
    · rw [hpl]
      show l1.player = l.player
      exact hl1pl
    · intro w' hw'
      apply hpres
      show (l1.weapons.free w).contains w' = false
      apply Pool.contains_free_of_not_contains
      rw [hl1w]
      exact hw'
    · intro w' hne' hp
      apply hppres w' hne'
      show ∀ p ∈ reset_projectile_owners l1.projectiles w, p.owner ≠ w'
      apply reset_projectile_owners_preserve _ _ _ hne'
      rw [hl1p]
      exact hp

/--
C3.  Removing a weapon first resets the owner handle of every projectile
whose owner equals that weapon to `Handle::NONE` — the reset is computed on
the projectile list of the state in which the weapon is still live, and
only then is the weapon freed — so no projectile retains a dangling
back-reference to the freed weapon.  Removing an actor removes every
weapon it held through that same procedure, and when the removed actor is
the player the level's player handle is reset to `Handle::NONE` (and is
left alone otherwise).  Live weapon handles are never `Handle::NONE` and an
actor's held list is duplicate-free (pool invariants), stated as hypotheses.
-/
theorem C3_removal_invariants (pick : Vec3 → Vec3) (lvl : Level) :
    (∀ w : Handle, w ≠ Handle.NONE → lvl.weapons.contains w = true →
      ∃ lvl', remove_weapon lvl w = some lvl' ∧
        lvl'.projectiles = reset_projectile_owners lvl.projectiles w ∧
        (∀ p ∈ lvl'.projectiles, p.owner ≠ w) ∧
        lvl'.weapons.contains w = false) ∧
    (∀ (a : Handle) (ch : ActorRec), lvl.actors.get a = some ch →
      (∀ w ∈ ch.weapons, w ≠ Handle.NONE ∧ lvl.weapons.contains w = true) →
      ch.weapons.Nodup →
      ∃ lvl', remove_actor pick lvl a = some lvl' ∧
        (∀ w ∈ ch.weapons, lvl'.weapons.contains w = false ∧
          ∀ p ∈ lvl'.projectiles, p.owner ≠ w) ∧
        lvl'.actors.contains a = false ∧
        (lvl.player = a → lvl'.player = Handle.NONE) ∧
        (lvl.player ≠ a → lvl'.player = lvl.player)) := by
  constructor
  · intro w hwne hwc
    refine ⟨_, remove_weapon_eq lvl w hwc, rfl, ?_, ?_⟩
    · exact reset_projectile_owners_not_owner _ _ hwne
    · exact Pool.contains_free_self _ _
  · intro a ch hget hlive hnd
    have hac : lvl.actors.contains a = true :=
      Pool.contains_of_get_isSome _ _ (by rw [hget]; rfl)
    obtain ⟨l', hfold, hrem, hact, hpl, _, _⟩ :=
      remove_actor_fold_spec pick ch.position ch.weapons lvl hlive hnd
    have hra : remove_actor pick lvl a =
        some (if ({ l' with actors := l'.actors.free a } : Level).player = a then
          { ({ l' with actors := l'.actors.free a } : Level) with player := Handle.NONE }
        else { l' with actors := l'.actors.free a }) := by
      unfold remove_actor
      rw [hac, hget]
      show ((ch.weapons.foldl (remove_actor_weapon_step pick ch.position)
        (some lvl)).map _) = _
      rw [hfold]
      rfl
    by_cases hpa : lvl.player = a
    · refine ⟨_, hra, ?_, ?_, ?_, ?_⟩
      · intro w hw
        have h := hrem w hw
        have hpe : ({ l' with actors := l'.actors.free a } : Level).player = a := by
          show l'.player = a
          rw [hpl]; exact hpa
        rw [if_pos hpe]
        exact h
      · have hpe : ({ l' with actors := l'.actors.free a } : Level).player = a := by
          show l'.player = a
          rw [hpl]; exact hpa
        rw [if_pos hpe]
        show (l'.actors.free a).contains a = false
        exact Pool.contains_free_self _ _
      · intro _
        have hpe : ({ l' with actors := l'.actors.free a } : Level).player = a := by
          show l'.player = a
          rw [hpl]; exact hpa
        rw [if_pos hpe]
      · intro hcon
        exact absurd hpa hcon
    · refine ⟨_, hra, ?_, ?_, ?_, ?_⟩
      · intro w hw
        have h := hrem w hw
        have hpe : ¬ ({ l' with actors := l'.actors.free a } : Level).player = a := by
          show ¬ l'.player = a
          rw [hpl]; exact hpa
        rw [if_neg hpe]
        exact h
      · have hpe : ¬ ({ l' with actors := l'.actors.free a } : Level).player = a := by
          show ¬ l'.player = a
          rw [hpl]; exact hpa
        rw [if_neg hpe]
        show (l'.actors.free a).contains a = false
        exact Pool.contains_free_self _ _
      · intro hcon
        exact absurd hcon hpa
      · intro _
        have hpe : ¬ ({ l' with actors := l'.actors.free a } : Level).player = a := by
          show ¬ l'.player = a
          rw [hpl]; exact hpa
        rw [if_neg hpe]
        show l'.player = lvl.player
        exact hpl

end StationIapetus.LevelSim

namespace StationIapetus.LevelSim

/-- A concrete actor holding weapon handle 2, for the C3 witness. -/
def C3Actor : ActorRec :=
  { isBot := false, health := 100, weapons := [⟨2⟩], position := ⟨0, 0, 0⟩,
    poi := none }

/-- A concrete level: the player (handle 1) holds weapon 2, and one
in-flight projectile is owned by weapon 2. -/
def C3Level : Level :=
  { player := ⟨1⟩,
    actors := ⟨[(⟨1⟩, C3Actor)], 2⟩,
    weapons := ⟨[(⟨2⟩, { kind := .Ak47, owner := ⟨1⟩, ammo := 10, visible := true })], 3⟩,
    items := ⟨[], 1⟩,
    projectiles := [{ owner := ⟨2⟩ }],
    death_zones := [],
    sentMessages := [] }

/-- Witness for C3 at the concrete level above. -/
theorem C3_witness :
    (∃ lvl', remove_weapon C3Level ⟨2⟩ = some lvl' ∧
      lvl'.projectiles = reset_projectile_owners C3Level.projectiles ⟨2⟩ ∧
      (∀ p ∈ lvl'.projectiles, p.owner ≠ (⟨2⟩ : Handle)) ∧
      lvl'.weapons.contains ⟨2⟩ = false) ∧
    (∃ lvl', remove_actor (fun v => v) C3Level ⟨1⟩ = some lvl' ∧
      (∀ w ∈ C3Actor.weapons, lvl'.weapons.contains w = false ∧
        ∀ p ∈ lvl'.projectiles, p.owner ≠ w) ∧
      lvl'.actors.contains ⟨1⟩ = false ∧
      (C3Level.player = ⟨1⟩ → lvl'.player = Handle.NONE) ∧
      (C3Level.player ≠ ⟨1⟩ → lvl'.player = C3Level.player)) := by
  have h := C3_removal_invariants (fun v => v) C3Level
  refine ⟨h.1 ⟨2⟩ (by decide) rfl, h.2 ⟨1⟩ C3Actor rfl ?_ (List.nodup_singleton _)⟩
  intro w hw
  rw [show C3Actor.weapons = [⟨2⟩] from rfl, List.mem_singleton] at hw
  subst hw
  exact ⟨by decide, rfl⟩

end StationIapetus.LevelSim

namespace StationIapetus.LevelSim

/-! ## Claim C7: the death-zone phase -/

/-- Pool keys are unique, so an association entry is determined by its key. -/
theorem keys_nodup_entry_unique :
    ∀ (l : List (Handle × ActorRec)), (l.map Prod.fst).Nodup →
      ∀ (h : Handle) (a a' : ActorRec), (h, a) ∈ l → (h, a') ∈ l → a = a' := by
  intro l
  induction l with
  | nil =>
    intro _ h a a' hm
    exact absurd hm (List.not_mem_nil _)
  | cons e t ih =>
    intro hnd h a a' hm hm'
    rw [List.map_cons, List.nodup_cons] at hnd
    obtain ⟨hhead, htail⟩ := hnd
    rcases List.mem_cons.mp hm with he | ht
    · rcases List.mem_cons.mp hm' with he' | ht'
      · rw [← he] at he'
        exact (Prod.mk.injEq _ _ _ _).mp he'.symm |>.2
      · exfalso
        apply hhead
        rw [List.mem_map]
        exact ⟨(h, a'), ht', by rw [← he]⟩
    · rcases List.mem_cons.mp hm' with he' | ht'
      · exfalso
        apply hhead
        rw [List.mem_map]
        exact ⟨(h, a), ht, by rw [← he']⟩
      · exact ih htail h a a' ht ht'

/--
C7.  During the death-zone phase (`Level::update_death_zones`), every actor
whose position lies inside some death zone's bounding box causes a
`DamageActor` message with the fixed lethal amount `99999` and no attacker
(`who = Handle::NONE`, the `Default::default()` of the source); the phase
mutates no actor (nor any other container) — its only effect is appending
those messages to the send log; only such messages are emitted; and an
actor outside every death zone causes no message (given the pool invariant
that actor handles are unique).
-/
theorem C7_death_zone_phase (lvl : Level)
    (hkeys : (lvl.actors.entries.map Prod.fst).Nodup) :
    (update_death_zones lvl).player = lvl.player ∧
    (update_death_zones lvl).actors = lvl.actors ∧
    (update_death_zones lvl).weapons = lvl.weapons ∧
    (update_death_zones lvl).items = lvl.items ∧
    (update_death_zones lvl).projectiles = lvl.projectiles ∧
    (update_death_zones lvl).sentMessages =
      lvl.sentMessages ++ deathZoneMessages lvl ∧
    (∀ (h : Handle) (a : ActorRec), (h, a) ∈ lvl.actors.entries →
      (∃ z ∈ lvl.death_zones, z.is_contains_point a.position = true) →
      Message.DamageActor h Handle.NONE 99999 ∈ deathZoneMessages lvl) ∧
    (∀ m ∈ deathZoneMessages lvl, ∃ (h : Handle) (a : ActorRec),
      (h, a) ∈ lvl.actors.entries ∧
      (∃ z ∈ lvl.death_zones, z.is_contains_point a.position = true) ∧
      m = Message.DamageActor h Handle.NONE 99999) ∧
    (∀ (h : Handle) (a : ActorRec), (h, a) ∈ lvl.actors.entries →
      (∀ z ∈ lvl.death_zones, z.is_contains_point a.position = false) →
      Message.DamageActor h Handle.NONE 99999 ∉ deathZoneMessages lvl) := by
  refine ⟨rfl, rfl, rfl, rfl, rfl, rfl, ?_, ?_, ?_⟩
  · intro h a hm hz
    obtain ⟨z, hzm, hzc⟩ := hz
    unfold deathZoneMessages
    rw [List.mem_flatMap]
    refine ⟨(h, a), hm, ?_⟩
    rw [List.mem_filterMap]
    exact ⟨z, hzm, by rw [hzc]; rfl⟩
  · intro m hm
    unfold deathZoneMessages at hm
    rw [List.mem_flatMap] at hm
    obtain ⟨e, he, hmf⟩ := hm
    rw [List.mem_filterMap] at hmf
    obtain ⟨z, hzm, hz⟩ := hmf
    by_cases hc : z.is_contains_point e.2.position = true
    · rw [if_pos hc] at hz
      exact ⟨e.1, e.2, he, ⟨z, hzm, hc⟩, (Option.some.injEq _ _).mp hz |>.symm⟩
    · rw [if_neg hc] at hz
      exact absurd hz (Option.noConfusion)
  · intro h a hm hout hmem
    unfold deathZoneMessages at hmem
    rw [List.mem_flatMap] at hmem
    obtain ⟨e, he, hmf⟩ := hmem
    rw [List.mem_filterMap] at hmf
    obtain ⟨z, hzm, hz⟩ := hmf
    by_cases hc : z.is_contains_point e.2.position = true
    · rw [if_pos hc] at hz
      have heq := (Option.some.injEq _ _).mp hz
      have hh : e.1 = h := by
        injection heq with h1 _
      have ha : e.2 = a := by
        apply keys_nodup_entry_unique lvl.actors.entries hkeys h
        · rw [← hh]
          exact (Prod.mk.eta (p := e)) ▸ he
        · exact hm
      have := hout z hzm
      rw [ha] at hc
      rw [this] at hc
      exact Bool.false_ne_true hc
    · rw [if_neg hc] at hz
      exact absurd hz (Option.noConfusion)

/-- Concrete actors and level for the C7 witness: actor 1 stands inside the
only death zone, actor 2 far outside it. -/
def C7ActorIn : ActorRec :=
  { isBot := false, health := 100, weapons := [], position := ⟨0, 0, 0⟩, poi := none }

def C7ActorOut : ActorRec :=
  { isBot := true, health := 100, weapons := [], position := ⟨10, 10, 10⟩, poi := none }

def C7Zone : AABB := { min := ⟨-1, -1, -1⟩, max := ⟨1, 1, 1⟩ }

def C7Level : Level :=
  { player := ⟨1⟩,
    actors := ⟨[(⟨1⟩, C7ActorIn), (⟨2⟩, C7ActorOut)], 3⟩,
    weapons := ⟨[], 1⟩,
    items := ⟨[], 1⟩,
    projectiles := [],
    death_zones := [C7Zone],
    sentMessages := [] }

/-- Witness for C7 at the concrete level above. -/
theorem C7_witness :
    (update_death_zones C7Level).sentMessages =
      C7Level.sentMessages ++ deathZoneMessages C7Level ∧
    (update_death_zones C7Level).actors = C7Level.actors ∧
    Message.DamageActor ⟨1⟩ Handle.NONE 99999 ∈ deathZoneMessages C7Level ∧
    Message.DamageActor ⟨2⟩ Handle.NONE 99999 ∉ deathZoneMessages C7Level := by
  have h := C7_death_zone_phase C7Level (by decide)
  refine ⟨h.2.2.2.2.2.1, h.2.1, ?_, ?_⟩
  · apply h.2.2.2.2.2.2.1 ⟨1⟩ C7ActorIn
    · show (⟨1⟩, C7ActorIn) ∈ (⟨1⟩, C7ActorIn) :: [((⟨2⟩ : Handle), C7ActorOut)]
      exact List.mem_cons_self _ _
    · refine ⟨C7Zone, List.mem_singleton.mpr rfl, ?_⟩
      simp only [C7Zone, AABB.is_contains_point, C7ActorIn, decide_eq_true_eq]
      norm_num
  · apply h.2.2.2.2.2.2.2.2 ⟨2⟩ C7ActorOut
    · show (⟨2⟩, C7ActorOut) ∈ (⟨1⟩, C7ActorIn) :: [((⟨2⟩ : Handle), C7ActorOut)]
      exact List.mem_cons_of_mem _ (List.mem_singleton.mpr rfl)
    · intro z hz
      rw [show C7Level.death_zones = [C7Zone] from rfl, List.mem_singleton] at hz
      subst hz
      simp only [C7Zone, AABB.is_contains_point, C7ActorOut, decide_eq_false_iff_not]
      norm_num

end StationIapetus.LevelSim

namespace StationIapetus.UpperBody

/-!
## `game/src/player/upper_body.rs`

The upper-body animation state machine.  The fyrox `Machine` is modelled
by the pieces `src/player/upper_body.rs` manipulates: a parameter table
written through `set_parameter` (a name-keyed insert-or-overwrite map,
modelled as the chronological write log with a last-write-wins lookup),
the animation container abstracted to the per-animation `has_ended` flags
the rules read, and an evaluation log recording each `evaluate_pose` call
with the parameter log and animation state it observed and the `dt` it was
given.  Clip-time advancing (engine side) is the `advance` parameter.
-/

/-- The animations of the machine whose `has_ended` state feeds rules. -/
inductive AnimKey where
  | jump
  | land
  | putBack
  | grab
  | tossGrenade
  | dying
  | hitReactionRifle
  | hitReactionPistol
  deriving DecidableEq, Repr

/-- fyrox `machine::Parameter`. -/
inductive Parameter where
  | Rule (value : Bool)
  | Weight (value : ℚ)
  | Index (value : Nat)
  deriving DecidableEq, Repr

/-- `CombatWeaponKind` (`upper_body.rs` lines 168–172). -/
inductive CombatWeaponKind where
  | Pistol
  | Rifle
  deriving DecidableEq, Repr

/-- `UpperBodyMachineInput` (`upper_body.rs` lines 174–185). -/
structure UpperBodyMachineInput where
  is_walking : Bool
  is_jumping : Bool
  run_factor : ℚ
  has_ground_contact : Bool
  is_aiming : Bool
  toss_grenade : Bool
  weapon_kind : CombatWeaponKind
  change_weapon : Bool
  is_dead : Bool
  should_be_stunned : Bool

/-! The rule-name constants of `UpperBodyMachine` (lines 188–240).  Note
`WALK_STATE_WEAPON_KIND` is defined in the source as the **same string**
as `IDLE_STATE_WEAPON_KIND`. -/

def WALK_TO_AIM : String := "WalkToAim"
def IDLE_TO_AIM : String := "IdleToAim"
def AIM_TO_IDLE : String := "AimToIdle"
def AIM_TO_WALK : String := "AimToWalk"
def WALK_TO_IDLE : String := "WalkToIdle"
def WALK_TO_JUMP : String := "WalkToJump"
def IDLE_TO_WALK : String := "IdleToWalk"
def IDLE_TO_JUMP : String := "IdleToJump"
def JUMP_TO_FALL : String := "JumpToFall"
def WALK_TO_FALL : String := "WalkToFall"
def IDLE_TO_FALL : String := "IdleToFall"
def FALL_TO_LAND : String := "FallToLand"
def LAND_TO_IDLE : String := "LandToIdle"
def TOSS_GRENADE_TO_AIM : String := "TossGrenadeToAim"
def AIM_TO_TOSS_GRENADE : String := "AimToTossGrenade"
def AIM_TO_PUT_BACK : String := "AimToPutBack"
def WALK_TO_PUT_BACK : String := "WalkToPutBack"
def IDLE_TO_PUT_BACK : String := "IdleToPutBack"
def PUT_BACK_TO_IDLE : String := "PutBackToIdle"
def PUT_BACK_TO_WALK : String := "PutBackToWalk"
def PUT_BACK_TO_GRAB : String := "PutBackToGrab"
def GRAB_TO_IDLE : String := "GrabToIdle"
def GRAB_TO_WALK : String := "GrabToWalk"
def GRAB_TO_AIM : String := "GrabToAim"
def LAND_TO_DYING : String := "LandToDying"
def FALL_TO_DYING : String := "FallToDying"
def IDLE_TO_DYING : String := "IdleToDying"
def WALK_TO_DYING : String := "WalkToDying"
def JUMP_TO_DYING : String := "JumpToDying"
def AIM_TO_DYING : String := "AimToDying"
def TOSS_GRENADE_TO_DYING : String := "TossGrenadeToDying"
def GRAB_TO_DYING : String := "GrabToDying"
def PUT_BACK_TO_DYING : String := "PutBackToDying"
def RIFLE_AIM_FACTOR : String := "RifleAimFactor"
def PISTOL_AIM_FACTOR : String := "PistolAimFactor"
def IDLE_TO_HIT_REACTION : String := "IdleToHitReaction"
def WALK_TO_HIT_REACTION : String := "WalkToHitReaction"
def AIM_TO_HIT_REACTION : String := "AimToHitReaction"
def HIT_REACTION_TO_IDLE : String := "HitReactionToIdle"
def HIT_REACTION_TO_WALK : String := "HitReactionToWalk"
def HIT_REACTION_TO_DYING : String := "HitReactionToDying"
def HIT_REACTION_TO_AIM : String := "HitReactionToAim"
def HIT_REACTION_WEAPON_KIND : String := "HitReactionWeaponKind"
def IDLE_STATE_WEAPON_KIND : String := "IdleStateWeaponKind"
def WALK_STATE_WEAPON_KIND : String := "IdleStateWeaponKind"

/-- The machine state visible to `UpperBodyMachine::apply`. -/
structure MachineEnv where
  params : List (String × Parameter)
  anims : AnimKey → Bool
  evalLog : List (List (String × Parameter) × (AnimKey → Bool) × ℚ)

/-- `Machine::set_parameter`: insert-or-overwrite by name, modelled by
appending to the chronological write log. -/
def set_parameter (m : MachineEnv) (k : String) (v : Parameter) : MachineEnv :=
  { m with params := m.params ++ [(k, v)] }

/-- `Machine::evaluate_pose(animations_container, dt)`: records what the
evaluation observed (the current parameter log, the current animation
state, `dt`), and advances clip times by the engine rule `advance`. -/
def evaluate_pose (advance : (AnimKey → Bool) → ℚ → (AnimKey → Bool))
    (m : MachineEnv) (dt : ℚ) : MachineEnv :=
  { m with
    evalLog := m.evalLog ++ [(m.params, m.anims, dt)],
    anims := advance m.anims dt }

/-- The last-write-wins view of the write log: the parameter table. -/
def tableOf (ws : List (String × Parameter)) (k : String) : Option Parameter :=
  (ws.reverse.find? (fun w => w.1 = k)).map (fun w => w.2)

/-- The hit-reaction/weapon-kind index of `apply` (lines 791–794):
`Rifle ↦ 0`, `Pistol ↦ 1`. -/
def hitIndex : CombatWeaponKind → Nat
  | .Rifle => 0
  | .Pistol => 1

/-- The hit-reaction animation selected by weapon kind (lines 791–794). -/
def hitReactionAnim : CombatWeaponKind → AnimKey
  | .Rifle => .hitReactionRifle
  | .Pistol => .hitReactionPistol

/--
`UpperBodyMachine::apply` (lines 781–986), up to and including the
`evaluate_pose` call (the subsequent per-node pose application is modelled
separately by `apply_with_node`).  Each `set_parameter` argument is
evaluated against the machine state current at that point in the chain,
exactly as the Rust argument evaluation does; `recovered` is computed
before the chain from the same immutably borrowed animation container.
-/
def apply (advance : (AnimKey → Bool) → ℚ → (AnimKey → Bool))
    (m0 : MachineEnv) (input : UpperBodyMachineInput) (dt : ℚ) : MachineEnv :=
  let index := hitIndex input.weapon_kind
  let recovered := !input.should_be_stunned &&
    m0.anims (hitReactionAnim input.weapon_kind)
  let m := set_parameter m0 IDLE_TO_WALK (.Rule input.is_walking)
  let m := set_parameter m WALK_TO_IDLE (.Rule !input.is_walking)
  let m := set_parameter m WALK_TO_JUMP (.Rule input.is_jumping)
  let m := set_parameter m IDLE_TO_JUMP (.Rule input.is_jumping)
  let m := set_parameter m JUMP_TO_FALL (.Rule (m.anims .jump))
  let m := set_parameter m WALK_TO_FALL (.Rule !input.has_ground_contact)
  let m := set_parameter m IDLE_TO_FALL (.Rule !input.has_ground_contact)
  let m := set_parameter m FALL_TO_LAND (.Rule input.has_ground_contact)
  let m := set_parameter m LAND_TO_IDLE (.Rule (m.anims .land))
  let m := set_parameter m IDLE_TO_AIM
    (.Rule (input.is_aiming && input.has_ground_contact))
  let m := set_parameter m WALK_TO_AIM
    (.Rule (input.is_aiming && input.has_ground_contact))
  let m := set_parameter m AIM_TO_IDLE
    (.Rule (!input.is_aiming || !input.has_ground_contact))
  let m := set_parameter m AIM_TO_WALK
    (.Rule (!input.is_aiming || !input.has_ground_contact))
  let m := set_parameter m AIM_TO_PUT_BACK
    (.Rule (input.is_aiming && input.change_weapon))
  let m := set_parameter m WALK_TO_PUT_BACK (.Rule input.change_weapon)
  let m := set_parameter m IDLE_TO_PUT_BACK (.Rule input.change_weapon)
  let m := set_parameter m PUT_BACK_TO_IDLE
    (.Rule (!input.change_weapon && m.anims .putBack))
  let m := set_parameter m PUT_BACK_TO_WALK
    (.Rule (!input.change_weapon && input.is_walking && m.anims .putBack))
  let m := set_parameter m PUT_BACK_TO_GRAB
    (.Rule (input.change_weapon && m.anims .putBack))
  let m := set_parameter m GRAB_TO_IDLE
    (.Rule (!input.change_weapon && !input.is_aiming && m.anims .grab))
  let m := set_parameter m GRAB_TO_WALK
    (.Rule (!input.change_weapon && input.is_walking && !input.is_aiming &&
      m.anims .grab))
  let m := set_parameter m GRAB_TO_AIM
    (.Rule (input.is_aiming && m.anims .grab))
  let m := set_parameter m PISTOL_AIM_FACTOR
    (.Weight (if input.weapon_kind = .Pistol then 1 else 0))
  let m := set_parameter m RIFLE_AIM_FACTOR
    (.Weight (if input.weapon_kind = .Rifle then 1 else 0))
  let m := set_parameter m HIT_REACTION_WEAPON_KIND (.Index index)
  let m := set_parameter m IDLE_TO_HIT_REACTION (.Rule input.should_be_stunned)
  let m := set_parameter m WALK_TO_HIT_REACTION (.Rule input.should_be_stunned)
  let m := set_parameter m AIM_TO_HIT_REACTION (.Rule input.should_be_stunned)
  let m := set_parameter m HIT_REACTION_TO_IDLE (.Rule recovered)
  let m := set_parameter m HIT_REACTION_TO_WALK (.Rule recovered)
  let m := set_parameter m HIT_REACTION_TO_DYING (.Rule input.is_dead)
  let m := set_parameter m HIT_REACTION_TO_AIM
    (.Rule (recovered && input.is_aiming))
  let m := set_parameter m LAND_TO_DYING (.Rule input.is_dead)
  let m := set_parameter m IDLE_TO_DYING (.Rule input.is_dead)
  let m := set_parameter m FALL_TO_DYING (.Rule input.is_dead)
  let m := set_parameter m WALK_TO_DYING (.Rule input.is_dead)
  let m := set_parameter m JUMP_TO_DYING (.Rule input.is_dead)
  let m := set_parameter m AIM_TO_DYING (.Rule input.is_dead)
  let m := set_parameter m TOSS_GRENADE_TO_DYING (.Rule input.is_dead)
  let m := set_parameter m GRAB_TO_DYING (.Rule input.is_dead)
  let m := set_parameter m PUT_BACK_TO_DYING (.Rule input.is_dead)
  let m := set_parameter m WALK_STATE_WEAPON_KIND
    (.Index (index + if input.run_factor > 1 / 10 then 2 else 0))
  let m := set_parameter m TOSS_GRENADE_TO_AIM
    (.Rule (!input.toss_grenade && m.anims .tossGrenade))
  let m := set_parameter m AIM_TO_TOSS_GRENADE
    (.Rule (input.toss_grenade && input.is_aiming))
  let m := set_parameter m IDLE_STATE_WEAPON_KIND (.Index index)
  evaluate_pose advance m dt

/--
The same 45 writes as a plain list, with every animation-completion fact
taken from a fixed animation state `A` — the shape the writes have when
all reads see the pre-call container state.
-/
def applyWrites (A : AnimKey → Bool) (input : UpperBodyMachineInput) :
    List (String × Parameter) :=
  let index := hitIndex input.weapon_kind
  let recovered := !input.should_be_stunned && A (hitReactionAnim input.weapon_kind)
  [(IDLE_TO_WALK, .Rule input.is_walking),
   (WALK_TO_IDLE, .Rule !input.is_walking),
   (WALK_TO_JUMP, .Rule input.is_jumping),
   (IDLE_TO_JUMP, .Rule input.is_jumping),
   (JUMP_TO_FALL, .Rule (A .jump)),
   (WALK_TO_FALL, .Rule !input.has_ground_contact),
   (IDLE_TO_FALL, .Rule !input.has_ground_contact),
   (FALL_TO_LAND, .Rule input.has_ground_contact),
   (LAND_TO_IDLE, .Rule (A .land)),
   (IDLE_TO_AIM, .Rule (input.is_aiming && input.has_ground_contact)),
   (WALK_TO_AIM, .Rule (input.is_aiming && input.has_ground_contact)),
   (AIM_TO_IDLE, .Rule (!input.is_aiming || !input.has_ground_contact)),
   (AIM_TO_WALK, .Rule (!input.is_aiming || !input.has_ground_contact)),
   (AIM_TO_PUT_BACK, .Rule (input.is_aiming && input.change_weapon)),
   (WALK_TO_PUT_BACK, .Rule input.change_weapon),
   (IDLE_TO_PUT_BACK, .Rule input.change_weapon),
   (PUT_BACK_TO_IDLE, .Rule (!input.change_weapon && A .putBack)),
   (PUT_BACK_TO_WALK, .Rule (!input.change_weapon && input.is_walking && A .putBack)),
   (PUT_BACK_TO_GRAB, .Rule (input.change_weapon && A .putBack)),
   (GRAB_TO_IDLE, .Rule (!input.change_weapon && !input.is_aiming && A .grab)),
   (GRAB_TO_WALK, .Rule (!input.change_weapon && input.is_walking &&
     !input.is_aiming && A .grab)),
   (GRAB_TO_AIM, .Rule (input.is_aiming && A .grab)),
   (PISTOL_AIM_FACTOR, .Weight (if input.weapon_kind = .Pistol then 1 else 0)),
   (RIFLE_AIM_FACTOR, .Weight (if input.weapon_kind = .Rifle then 1 else 0)),
   (HIT_REACTION_WEAPON_KIND, .Index index),
   (IDLE_TO_HIT_REACTION, .Rule input.should_be_stunned),
   (WALK_TO_HIT_REACTION, .Rule input.should_be_stunned),
   (AIM_TO_HIT_REACTION, .Rule input.should_be_stunned),
   (HIT_REACTION_TO_IDLE, .Rule recovered),
   (HIT_REACTION_TO_WALK, .Rule recovered),
   (HIT_REACTION_TO_DYING, .Rule input.is_dead),
   (HIT_REACTION_TO_AIM, .Rule (recovered && input.is_aiming)),
   (LAND_TO_DYING, .Rule input.is_dead),
   (IDLE_TO_DYING, .Rule input.is_dead),
   (FALL_TO_DYING, .Rule input.is_dead),
   (WALK_TO_DYING, .Rule input.is_dead),
   (JUMP_TO_DYING, .Rule input.is_dead),
   (AIM_TO_DYING, .Rule input.is_dead),
   (TOSS_GRENADE_TO_DYING, .Rule input.is_dead),
   (GRAB_TO_DYING, .Rule input.is_dead),
   (PUT_BACK_TO_DYING, .Rule input.is_dead),
   (WALK_STATE_WEAPON_KIND, .Index (index + if input.run_factor > 1 / 10 then 2 else 0)),
   (TOSS_GRENADE_TO_AIM, .Rule (!input.toss_grenade && A .tossGrenade)),
   (AIM_TO_TOSS_GRENADE, .Rule (input.toss_grenade && input.is_aiming)),
   (IDLE_STATE_WEAPON_KIND, .Index index)]

end StationIapetus.UpperBody

namespace StationIapetus.UpperBody

attribute [simp] WALK_TO_AIM IDLE_TO_AIM AIM_TO_IDLE AIM_TO_WALK WALK_TO_IDLE
  WALK_TO_JUMP IDLE_TO_WALK IDLE_TO_JUMP JUMP_TO_FALL WALK_TO_FALL IDLE_TO_FALL
  FALL_TO_LAND LAND_TO_IDLE TOSS_GRENADE_TO_AIM AIM_TO_TOSS_GRENADE
  AIM_TO_PUT_BACK WALK_TO_PUT_BACK IDLE_TO_PUT_BACK PUT_BACK_TO_IDLE
  PUT_BACK_TO_WALK PUT_BACK_TO_GRAB GRAB_TO_IDLE GRAB_TO_WALK GRAB_TO_AIM
  LAND_TO_DYING FALL_TO_DYING IDLE_TO_DYING WALK_TO_DYING JUMP_TO_DYING
  AIM_TO_DYING TOSS_GRENADE_TO_DYING GRAB_TO_DYING PUT_BACK_TO_DYING
  RIFLE_AIM_FACTOR PISTOL_AIM_FACTOR IDLE_TO_HIT_REACTION WALK_TO_HIT_REACTION
  AIM_TO_HIT_REACTION HIT_REACTION_TO_IDLE HIT_REACTION_TO_WALK
  HIT_REACTION_TO_DYING HIT_REACTION_TO_AIM HIT_REACTION_WEAPON_KIND
  IDLE_STATE_WEAPON_KIND WALK_STATE_WEAPON_KIND

/--
The write/evaluate structure of `apply`: the final parameter log is the
incoming one extended by the 45 writes, every animation-completion fact in
those writes is taken from the pre-call animation state, exactly one
`evaluate_pose` record is appended — observing the complete parameter log,
the *unadvanced* animation state, and `dt` — and the animation state is
advanced only by that final evaluation.
-/
theorem apply_decomposition (advance : (AnimKey → Bool) → ℚ → (AnimKey → Bool))
    (m : MachineEnv) (input : UpperBodyMachineInput) (dt : ℚ) :
    (apply advance m input dt).params = m.params ++ applyWrites m.anims input ∧
    (apply advance m input dt).evalLog =
      m.evalLog ++ [(m.params ++ applyWrites m.anims input, m.anims, dt)] ∧
    (apply advance m input dt).anims = advance m.anims dt := by
  refine ⟨?_, ?_, ?_⟩ <;>
    simp [apply, applyWrites, set_parameter, evaluate_pose, List.append_assoc]

theorem tableOf_append (xs ys : List (String × Parameter)) (k : String) :
    tableOf (xs ++ ys) k = (tableOf ys k).or (tableOf xs k) := by
  unfold tableOf
  rw [List.reverse_append, List.find?_append]
  cases h : ys.reverse.find? (fun w => w.1 = k) with
  | none => simp [h]
  | some w => simp [h]

theorem tableOf_append_right (xs ys : List (String × Parameter)) (k : String)
    (v : Parameter) (h : tableOf ys k = some v) : tableOf (xs ++ ys) k = some v := by
  rw [tableOf_append, h]
  rfl

/-- The states of the upper-body layer (one per named animation state). -/
inductive StateId where
  | Idle
  | Walk
  | Jump
  | Fall
  | Land
  | Aim
  | TossGrenade
  | PutBack
  | Grab
  | Dying
  | HitReaction
  deriving DecidableEq, Repr

/-- fyrox `machine::Transition` as constructed by `UpperBodyMachine::new`:
display name, source, target, blend duration, rule-parameter name. -/
structure TransitionDef where
  name : String
  source : StateId
  target : StateId
  duration : ℚ
  rule : String

/--
All `add_transition` calls of `UpperBodyMachine::new` (lines 472–759), in
declaration order.  (The source reuses the display name "Walk->Aim" for
the Aim→Walk transition; rule names are what matter.)
-/
def transitions : List TransitionDef :=
  [⟨"Walk->Idle", .Walk, .Idle, 30 / 100, WALK_TO_IDLE⟩,
   ⟨"Walk->Jump", .Walk, .Jump, 20 / 100, WALK_TO_JUMP⟩,
   ⟨"Idle->Walk", .Idle, .Walk, 40 / 100, IDLE_TO_WALK⟩,
   ⟨"Idle->Jump", .Idle, .Jump, 25 / 100, IDLE_TO_JUMP⟩,
   ⟨"Falling->Landing", .Fall, .Land, 20 / 100, FALL_TO_LAND⟩,
   ⟨"Landing->Idle", .Land, .Idle, 20 / 100, LAND_TO_IDLE⟩,
   ⟨"Jump->Falling", .Jump, .Fall, 30 / 100, JUMP_TO_FALL⟩,
   ⟨"Walk->Falling", .Walk, .Fall, 30 / 100, WALK_TO_FALL⟩,
   ⟨"Idle->Falling", .Idle, .Fall, 20 / 100, IDLE_TO_FALL⟩,
   ⟨"Idle->Aim", .Idle, .Aim, 20 / 100, IDLE_TO_AIM⟩,
   ⟨"Walk->Aim", .Walk, .Aim, 20 / 100, WALK_TO_AIM⟩,
   ⟨"Aim->Idle", .Aim, .Idle, 20 / 100, AIM_TO_IDLE⟩,
   ⟨"Walk->Aim", .Aim, .Walk, 20 / 100, AIM_TO_WALK⟩,
   ⟨"Aim->TossGrenade", .Aim, .TossGrenade, 20 / 100, AIM_TO_TOSS_GRENADE⟩,
   ⟨"TossGrenade->Aim", .TossGrenade, .Aim, 20 / 100, TOSS_GRENADE_TO_AIM⟩,
   ⟨"Aim->PutBack", .Aim, .PutBack, 10 / 100, AIM_TO_PUT_BACK⟩,
   ⟨"Walk->PutBack", .Walk, .PutBack, 10 / 100, WALK_TO_PUT_BACK⟩,
   ⟨"Idle->PutBack", .Idle, .PutBack, 10 / 100, IDLE_TO_PUT_BACK⟩,
   ⟨"PutBack->Idle", .PutBack, .Idle, 20 / 100, PUT_BACK_TO_IDLE⟩,
   ⟨"PutBack->Walk", .PutBack, .Walk, 20 / 100, PUT_BACK_TO_WALK⟩,
   ⟨"PutBack->Grab", .PutBack, .Grab, 10 / 100, PUT_BACK_TO_GRAB⟩,
   ⟨"Grab->Idle", .Grab, .Idle, 20 / 100, GRAB_TO_IDLE⟩,
   ⟨"Grab->Walk", .Grab, .Walk, 20 / 100, GRAB_TO_WALK⟩,
   ⟨"Grab->Aim", .Grab, .Aim, 20 / 100, GRAB_TO_AIM⟩,
   ⟨"Land->Dying", .Land, .Dying, 20 / 100, LAND_TO_DYING⟩,
   ⟨"Fall->Dying", .Fall, .Dying, 20 / 100, FALL_TO_DYING⟩,
   ⟨"Idle->Dying", .Idle, .Dying, 20 / 100, IDLE_TO_DYING⟩,
   ⟨"Walk->Dying", .Walk, .Dying, 20 / 100, WALK_TO_DYING⟩,
   ⟨"Jump->Dying", .Jump, .Dying, 20 / 100, JUMP_TO_DYING⟩,
   ⟨"Aim->Dying", .Aim, .Dying, 20 / 100, AIM_TO_DYING⟩,
   ⟨"TossGrenade->Dying", .TossGrenade, .Dying, 20 / 100, TOSS_GRENADE_TO_DYING⟩,
   ⟨"Grab->Dying", .Grab, .Dying, 20 / 100, GRAB_TO_DYING⟩,
   ⟨"PutBack->Dying", .PutBack, .Dying, 20 / 100, PUT_BACK_TO_DYING⟩,
   ⟨"Idle->HitReaction", .Idle, .HitReaction, 20 / 100, IDLE_TO_HIT_REACTION⟩,
   ⟨"Walk->HitReaction", .Walk, .HitReaction, 20 / 100, WALK_TO_HIT_REACTION⟩,
   ⟨"HitReaction->Idle", .HitReaction, .Idle, 20 / 100, HIT_REACTION_TO_IDLE⟩,
   ⟨"HitReaction->Walk", .HitReaction, .Walk, 20 / 100, HIT_REACTION_TO_WALK⟩,
   ⟨"HitReaction->Dying", .HitReaction, .Dying, 20 / 100, HIT_REACTION_TO_DYING⟩,
   ⟨"Aim->HitReaction", .Aim, .HitReaction, 20 / 100, AIM_TO_HIT_REACTION⟩,
   ⟨"HitReaction->Aim", .HitReaction, .Aim, 20 / 100, HIT_REACTION_TO_AIM⟩]

/-- `root_layer.set_entry_state(idle_state)` (line 761). -/
def entryState : StateId := .Idle

end StationIapetus.UpperBody

namespace StationIapetus.UpperBody

/--
C9.  Within one call to `UpperBodyMachine::apply`: every
animation-completion fact used in a rule parameter is read from the
animation container's state as it was before the call (the writes equal
`applyWrites m.anims input`, whose completion facts all come from the
pre-call `m.anims` — spelled out below for every `has_ended`-dependent
rule); all named parameters are then written; and only afterwards is the
machine evaluated — the single evaluation record observes the complete
parameter log together with the *unadvanced* animation state and `dt`,
and clip state is advanced only by that final evaluation.  So no rule in
a given tick observes clip state advanced during that same tick.
-/
theorem C9_rule_evaluation_order (advance : (AnimKey → Bool) → ℚ → (AnimKey → Bool))
    (m : MachineEnv) (input : UpperBodyMachineInput) (dt : ℚ) :
    (apply advance m input dt).params = m.params ++ applyWrites m.anims input ∧
    (apply advance m input dt).evalLog =
      m.evalLog ++ [(m.params ++ applyWrites m.anims input, m.anims, dt)] ∧
    (apply advance m input dt).anims = advance m.anims dt ∧
    tableOf (apply advance m input dt).params JUMP_TO_FALL =
      some (.Rule (m.anims .jump)) ∧
    tableOf (apply advance m input dt).params LAND_TO_IDLE =
      some (.Rule (m.anims .land)) ∧
    tableOf (apply advance m input dt).params PUT_BACK_TO_IDLE =
      some (.Rule (!input.change_weapon && m.anims .putBack)) ∧
    tableOf (apply advance m input dt).params PUT_BACK_TO_GRAB =
      some (.Rule (input.change_weapon && m.anims .putBack)) ∧
    tableOf (apply advance m input dt).params GRAB_TO_AIM =
      some (.Rule (input.is_aiming && m.anims .grab)) ∧
    tableOf (apply advance m input dt).params TOSS_GRENADE_TO_AIM =
      some (.Rule (!input.toss_grenade && m.anims .tossGrenade)) ∧
    tableOf (apply advance m input dt).params HIT_REACTION_TO_IDLE =
      some (.Rule (!input.should_be_stunned &&
        m.anims (hitReactionAnim input.weapon_kind))) := by
  obtain ⟨hp, he, ha⟩ := apply_decomposition advance m input dt
  refine ⟨hp, he, ha, ?_, ?_, ?_, ?_, ?_, ?_, ?_⟩ <;>
    rw [hp] <;>
    exact tableOf_append_right _ _ _ _ (by simp [tableOf, applyWrites])

/--
C4.  `WALK_STATE_WEAPON_KIND` and `IDLE_STATE_WEAPON_KIND` are the same
string, so the Walk state's indexed blend reads the same parameter as the
Idle state's; the plain weapon-kind index (written last, to
`IDLE_STATE_WEAPON_KIND`) overwrites the run-adjusted index written
earlier to `WALK_STATE_WEAPON_KIND`, so after all writes of any `apply`
call the table maps that name to `Index 0` or `Index 1` only — the
run-variant child indices 2 and 3 are never observable by the blend
graph, regardless of `run_factor`.
-/
theorem C4_walk_weapon_kind_overwritten
    (advance : (AnimKey → Bool) → ℚ → (AnimKey → Bool)) (m : MachineEnv)
    (input : UpperBodyMachineInput) (dt : ℚ) :
    WALK_STATE_WEAPON_KIND = IDLE_STATE_WEAPON_KIND ∧
    tableOf (apply advance m input dt).params WALK_STATE_WEAPON_KIND =
      some (.Index (hitIndex input.weapon_kind)) ∧
    (hitIndex input.weapon_kind = 0 ∨ hitIndex input.weapon_kind = 1) ∧
    (∀ i : Nat, 2 ≤ i →
      tableOf (apply advance m input dt).params WALK_STATE_WEAPON_KIND ≠
        some (.Index i)) := by
  obtain ⟨hp, _, _⟩ := apply_decomposition advance m input dt
  have hlook : tableOf (apply advance m input dt).params WALK_STATE_WEAPON_KIND =
      some (.Index (hitIndex input.weapon_kind)) := by
    rw [hp]
    exact tableOf_append_right _ _ _ _ (by simp [tableOf, applyWrites])
  refine ⟨rfl, hlook, ?_, ?_⟩
  · cases input.weapon_kind
    · right; rfl
    · left; rfl
  · intro i hi hcon
    rw [hlook] at hcon
    have : hitIndex input.weapon_kind = i := by
      have := (Option.some.injEq _ _).mp hcon
      injection this
    cases hwk : input.weapon_kind <;> rw [hwk] at this <;>
      simp [hitIndex] at this <;> omega

/-- A concrete machine environment for witnesses. -/
def envC : MachineEnv := ⟨[], fun _ => false, []⟩

/-- A concrete input with `run_factor` above the run threshold. -/
def inputC : UpperBodyMachineInput :=
  { is_walking := true, is_jumping := false, run_factor := 1,
    has_ground_contact := true, is_aiming := false, toss_grenade := false,
    weapon_kind := .Rifle, change_weapon := false, is_dead := false,
    should_be_stunned := false }

/-- Witness for C4: even with `run_factor = 1` (run active, so the
run-adjusted write was `Index 2`), the final table maps the shared name to
`Index 0`, and `Index 2` is not observable. -/
theorem C4_witness :
    tableOf (apply (fun A _ => A) envC inputC 0).params WALK_STATE_WEAPON_KIND =
      some (.Index 0) ∧
    (2 ≤ 2 ∧
      tableOf (apply (fun A _ => A) envC inputC 0).params WALK_STATE_WEAPON_KIND ≠
        some (.Index 2)) := by
  have h := C4_walk_weapon_kind_overwritten (fun A _ => A) envC inputC 0
  exact ⟨h.2.1, le_refl 2, h.2.2.2 2 (le_refl 2)⟩

set_option maxHeartbeats 2000000 in
/--
C5.  In the layer built by `UpperBodyMachine::new`: the entry state is
Idle; the Dying state is the source of no transition (death is
absorbing); and every one of the other ten states has an outgoing
transition to Dying whose rule parameter is set to `input.is_dead` by
every call to `apply`.
-/
theorem C5_dying_is_absorbing :
    entryState = StateId.Idle ∧
    (∀ t ∈ transitions, t.source ≠ StateId.Dying) ∧
    (∀ s : StateId, s ≠ StateId.Dying →
      ∃ t, t ∈ transitions ∧ t.source = s ∧ t.target = StateId.Dying ∧
        ∀ (advance : (AnimKey → Bool) → ℚ → (AnimKey → Bool)) (m : MachineEnv)
          (input : UpperBodyMachineInput) (dt : ℚ),
          tableOf (apply advance m input dt).params t.rule =
            some (.Rule input.is_dead)) := by
  refine ⟨rfl, by decide, ?_⟩
  intro s hs
  have step : ∀ (n : Nat) (hn : n < transitions.length) (r : String),
      (transitions.get ⟨n, hn⟩).rule = r →
      (∀ (A : AnimKey → Bool) (input : UpperBodyMachineInput),
        tableOf (applyWrites A input) r = some (.Rule input.is_dead)) →
      (transitions.get ⟨n, hn⟩).source = s →
      (transitions.get ⟨n, hn⟩).target = StateId.Dying →
      ∃ t, t ∈ transitions ∧ t.source = s ∧ t.target = StateId.Dying ∧
        ∀ (advance : (AnimKey → Bool) → ℚ → (AnimKey → Bool)) (m : MachineEnv)
          (input : UpperBodyMachineInput) (dt : ℚ),
          tableOf (apply advance m input dt).params t.rule =
            some (.Rule input.is_dead) := by
    intro n hn r hrule hlook hsrc htgt
    refine ⟨transitions.get ⟨n, hn⟩, List.get_mem transitions n hn, hsrc, htgt, ?_⟩
    intro advance m input dt
    rw [(apply_decomposition advance m input dt).1, hrule]
    exact tableOf_append_right _ _ _ _ (hlook m.anims input)
  cases s with
  | Idle =>
    exact step 26 (by decide) IDLE_TO_DYING rfl
      (fun A input => by simp [tableOf, applyWrites]) rfl rfl
  | Walk =>
    exact step 27 (by decide) WALK_TO_DYING rfl
      (fun A input => by simp [tableOf, applyWrites]) rfl rfl
  | Jump =>
    exact step 28 (by decide) JUMP_TO_DYING rfl
      (fun A input => by simp [tableOf, applyWrites]) rfl rfl
  | Fall =>
    exact step 25 (by decide) FALL_TO_DYING rfl
      (fun A input => by simp [tableOf, applyWrites]) rfl rfl
  | Land =>
    exact step 24 (by decide) LAND_TO_DYING rfl
      (fun A input => by simp [tableOf, applyWrites]) rfl rfl
  | Aim =>
    exact step 29 (by decide) AIM_TO_DYING rfl
      (fun A input => by simp [tableOf, applyWrites]) rfl rfl
  | TossGrenade =>
    exact step 30 (by decide) TOSS_GRENADE_TO_DYING rfl
      (fun A input => by simp [tableOf, applyWrites]) rfl rfl
  | PutBack =>
    exact step 32 (by decide) PUT_BACK_TO_DYING rfl
      (fun A input => by simp [tableOf, applyWrites]) rfl rfl
  | Grab =>
    exact step 31 (by decide) GRAB_TO_DYING rfl
      (fun A input => by simp [tableOf, applyWrites]) rfl rfl
  | Dying => exact absurd rfl hs
  | HitReaction =>
    exact step 37 (by decide) HIT_REACTION_TO_DYING rfl
      (fun A input => by simp [tableOf, applyWrites]) rfl rfl

/-- Witness for C5 at the concrete state Jump. -/
theorem C5_witness :
    entryState = StateId.Idle ∧
    ∃ t, t ∈ transitions ∧ t.source = StateId.Jump ∧ t.target = StateId.Dying ∧
      ∀ (advance : (AnimKey → Bool) → ℚ → (AnimKey → Bool)) (m : MachineEnv)
        (input : UpperBodyMachineInput) (dt : ℚ),
        tableOf (apply advance m input dt).params t.rule =
          some (.Rule input.is_dead) :=
  ⟨C5_dying_is_absorbing.1,
    C5_dying_is_absorbing.2.2 StateId.Jump (by decide)⟩

end StationIapetus.UpperBody

namespace StationIapetus.UpperBody

/-! ## Claim C8: pose application with the hips carve-out -/

/-- fyrox `ValueBinding` (the bindings a track can target). -/
inductive ValueBinding where
  | Position
  | Rotation
  | Scale
  deriving DecidableEq, Repr

/-- A unit quaternion, as plain data. -/
structure Quat where
  x : ℚ
  y : ℚ
  z : ℚ
  w : ℚ
  deriving DecidableEq, Repr

/-- fyrox `TrackValue`. -/
inductive TrackValue where
  | vector3 (v : Vec3)
  | unitQuaternion (q : Quat)
  | real (r : ℚ)
  deriving DecidableEq, Repr

/-- fyrox `BoundValue`: one evaluated track with its target binding. -/
structure BoundValue where
  binding : ValueBinding
  value : TrackValue
  deriving DecidableEq, Repr

/-- The local transform of a scene node, as far as poses touch it. -/
structure LocalTransform where
  position : Vec3
  rotation : Quat
  scale : Vec3
  deriving DecidableEq, Repr

/-- fyrox `BoundValue::apply`: set the bound component of the node's local
transform; a value of the wrong shape for its binding is ignored. -/
def BoundValue.applyTo (v : BoundValue) (t : LocalTransform) : LocalTransform :=
  match v.binding, v.value with
  | .Position, .vector3 p => { t with position := p }
  | .Rotation, .unitQuaternion q => { t with rotation := q }
  | .Scale, .vector3 s => { t with scale := s }
  | _, _ => t

/-- `pose.values().apply(node)`: apply every bound track in order. -/
def applyFullPose (pose : List BoundValue) (t : LocalTransform) : LocalTransform :=
  pose.foldl (fun t v => v.applyTo t) t

/-- The `filter_map` of the hips branch (`upper_body.rs` lines 965–978):
the `Vector3` values of the tracks bound to `Scale`, in order. -/
def scaleTracks (pose : List BoundValue) : List Vec3 :=
  pose.filterMap (fun v =>
    if v.binding = .Scale then
      match v.value with
      | .vector3 s => some s
      | _ => none
    else none)

/--
The per-node closure passed to `apply_with` in `UpperBodyMachine::apply`
(lines 961–985): for the hips node, only the scale tracks are applied
(each through `set_scale`); for every other node the full pose is
applied.  The closure depends only on the node handle, the hips handle
and the evaluated pose — not on the machine input or active state.
-/
def apply_with_node (handle hips_handle : Nat) (pose : List BoundValue)
    (t : LocalTransform) : LocalTransform :=
  if handle = hips_handle then
    (scaleTracks pose).foldl (fun t s => { t with scale := s }) t
  else
    applyFullPose pose t

theorem foldl_set_scale_spec (l : List Vec3) (t : LocalTransform) :
    (l.foldl (fun t s => { t with scale := s }) t).position = t.position ∧
    (l.foldl (fun t s => { t with scale := s }) t).rotation = t.rotation ∧
    (l.foldl (fun t s => { t with scale := s }) t).scale = l.getLast?.getD t.scale := by
  induction l generalizing t with
  | nil => exact ⟨rfl, rfl, rfl⟩
  | cons x xs ih =>
    obtain ⟨hp, hr, hsc⟩ := ih { t with scale := x }
    rw [List.foldl_cons]
    refine ⟨hp, hr, ?_⟩
    rw [hsc]
    cases xs with
    | nil => rfl
    | cons y ys =>
      rw [List.getLast?_cons_cons]
      cases hly : (y :: ys).getLast? with
      | none =>
        exfalso
        rw [List.getLast?_eq_none_iff] at hly
        exact List.cons_ne_nil y ys hly
      | some z => rfl

/--
C8.  When the evaluated pose is applied to the skeleton, the designated
hips node receives only the scale track values (its final scale is the
last scale track, or its old scale when the pose has none), while its
local translation and rotation are left unchanged; every other node
receives the full pose.  The rule depends only on whether the node is the
hips node — by construction `apply_with_node` takes neither the machine
input nor the active state, so it acts identically on every call.
-/
theorem C8_hips_scale_carve_out (handle hips : Nat) (pose : List BoundValue)
    (t : LocalTransform) :
    (apply_with_node hips hips pose t).position = t.position ∧
    (apply_with_node hips hips pose t).rotation = t.rotation ∧
    (apply_with_node hips hips pose t).scale =
      (scaleTracks pose).getLast?.getD t.scale ∧
    (handle ≠ hips → apply_with_node handle hips pose t = applyFullPose pose t) := by
  have hfold := foldl_set_scale_spec (scaleTracks pose) t
  have hh : apply_with_node hips hips pose t =
      (scaleTracks pose).foldl (fun t s => { t with scale := s }) t := by
    unfold apply_with_node
    rw [if_pos rfl]
  refine ⟨?_, ?_, ?_, ?_⟩
  · rw [hh]; exact hfold.1
  · rw [hh]; exact hfold.2.1
  · rw [hh]; exact hfold.2.2
  · intro hne
    unfold apply_with_node
    rw [if_neg hne]

/-- A concrete pose and transform for the C8 witness. -/
def poseC : List BoundValue :=
  [{ binding := .Position, value := .vector3 ⟨1, 2, 3⟩ },
   { binding := .Scale, value := .vector3 ⟨2, 2, 2⟩ }]

def transformC : LocalTransform :=
  { position := ⟨0, 0, 0⟩, rotation := ⟨0, 0, 0, 1⟩, scale := ⟨1, 1, 1⟩ }

/-- Witness for C8: node 1 is the hips node, node 2 is not. -/
theorem C8_witness :
    (apply_with_node 1 1 poseC transformC).position = transformC.position ∧
    (apply_with_node 1 1 poseC transformC).rotation = transformC.rotation ∧
    (2 : Nat) ≠ 1 ∧
    apply_with_node 2 1 poseC transformC = applyFullPose poseC transformC := by
  have h := C8_hips_scale_carve_out 2 1 poseC transformC
  exact ⟨h.1, h.2.1, by norm_num, h.2.2.2 (by norm_num)⟩

end StationIapetus.UpperBody
